import Mathlib

/-!
Verification of the routedns configuration assembler (`cmd/routedns/main.go`).

The Go program reads a declarative configuration (resolvers, groups, routers,
listeners), instantiates the resolver graph by a dependency-ordered fixed-point
loop, and finally builds the listeners.  This file gives a shallow embedding of
that assembler: Go maps become association lists, the `rdns.Resolver` values
become a descriptive inductive type recording which constructor was called with
which options, and fallible Go functions become `Except`-valued Lean functions.

Functions of the resolver library (`rdns.New*`) and of the Go standard library
are out of scope of the source tree; where `main.go` calls them, the call is
modelled as documented at each definition.
-/

namespace RouteDNS

/-- Go `time.Duration`: a count of nanoseconds (modelled as `Nat`; all
durations built by `main.go` are non-negative products of config fields). -/
abbrev Duration := Nat

/-- Go `time.Second` in nanoseconds. -/
def timeSecond : Duration := 1000000000

/-- Go `time.Minute` in nanoseconds. -/
def timeMinute : Duration := 60 * timeSecond

/-! ## Association lists modelling Go maps -/

/-- Lookup in an association list, first match wins.  Models reading from a
Go map (`m[k]`, comma-ok form). -/
def alookup {α : Type} : List (String × α) → String → Option α
  | [], _ => none
  | (k, v) :: rest, x => if k = x then some v else alookup rest x

/-- Insert-or-overwrite, models a Go map assignment `m[k] = v`. -/
def upsert {α : Type} : List (String × α) → String → α → List (String × α)
  | [], k, v => [(k, v)]
  | (k', v') :: rest, k, v =>
    if k' = k then (k, v) :: rest else (k', v') :: upsert rest k v

/-- The keys of an association list. -/
def keys {α : Type} (m : List (String × α)) : List String := m.map (·.1)

/-! ## Configuration structures

The config structs (`config`, `group`, `router`, `listener`, `list`) are
declared in `cmd/routedns/config.go`, which is not under `src/`; their fields
are reconstructed from every use `main.go` makes of them. -/

/-- Fields of the `list` config struct used by `main.go`
(`l.Format`, `l.Source`, `l.CacheDir`). -/
structure ListCfg where
  format : String := ""
  source : String := ""
  cacheDir : String := ""
deriving Repr, DecidableEq

/-- Modelled from the spec: an upstream resolver definition ("Upstream
resolver URL schemes ... server address, optional SNI, ...").  Only the
address is consulted by `main.go` itself (`config.BootstrapResolver.Address`). -/
structure ResolverCfg where
  address : String := ""
  protocol : String := ""
deriving Repr, DecidableEq

/-- One replacement rule of a `replace` group (`rdns.ReplaceOperation`).
Modelled from the spec: an ordered pair of a name regex and a replacement. -/
structure ReplaceOp where
  pattern : String := ""
  replacement : String := ""
deriving Repr, DecidableEq

/-- Fields of the `group` config struct used by `main.go`. -/
structure Group where
  type : String := ""
  resolvers : List String := []
  blockListResolver : String := ""
  allowListResolver : String := ""
  limitResolver : String := ""
  blocklist : List String := []
  source : String := ""
  format : String := ""
  refresh : Nat := 0
  blocklistSource : List ListCfg := []
  allowlist : List String := []
  allowlistSource : List ListCfg := []
  blocklistFormat : String := ""
  blocklistRefresh : Nat := 0
  allowlistRefresh : Nat := 0
  replace : List ReplaceOp := []
  ttlMin : Nat := 0
  ttlMax : Nat := 0
  ecsOp : String := ""
  ecsAddress : String := ""
  ecsPrefix4 : Nat := 0
  ecsPrefix6 : Nat := 0
  edns0Op : String := ""
  edns0Code : Nat := 0
  edns0Data : List Nat := []
  gcPeriod : Nat := 0
  cacheSize : Nat := 0
  cacheNegativeTTL : Nat := 0
  locationDB : String := ""
  filter : Bool := false
  answer : List String := []
  ns : List String := []
  extra : List String := []
  rcode : Nat := 0
  nullRCode : Nat := 0
  requests : Nat := 0
  window : Nat := 0
  prefix4 : Nat := 0
  prefix6 : Nat := 0
deriving Repr, DecidableEq

/-- One route of a `router` config (`route.Resolver`, `route.Name`,
`route.Class`, `route.Type`, `route.Types`, `route.Source`, `route.Invert`). -/
structure RouteCfg where
  name : String := ""
  rclass : String := ""
  type : String := ""
  types : List String := []
  source : String := ""
  invert : Bool := false
  resolver : String := ""
deriving Repr, DecidableEq

/-- The `router` config struct: an ordered list of routes. -/
structure Router where
  routes : List RouteCfg := []
deriving Repr, DecidableEq

/-- The HTTP frontend options of a listener (`l.Frontend.HTTPProxyNet`). -/
structure Frontend where
  httpProxyNet : String := ""
deriving Repr, DecidableEq

/-- Fields of the `listener` config struct used by `main.go`. -/
structure Listener where
  address : String := ""
  protocol : String := ""
  resolver : String := ""
  allowedNet : List String := []
  ca : String := ""
  serverCrt : String := ""
  serverKey : String := ""
  mutualTLS : Bool := false
  transport : String := ""
  frontend : Frontend := {}
deriving Repr, DecidableEq

/-- The top-level configuration, after `loadConfig` (which is not under
`src/`) has parsed and merged the TOML files.  Go maps keyed by id are
modelled as association lists; a map produced by Go has `Nodup` keys. -/
structure Config where
  bootstrapResolver : ResolverCfg := {}
  resolvers : List (String × ResolverCfg) := []
  groups : List (String × Group) := []
  routers : List (String × Router) := []
  listeners : List (String × Listener) := []
deriving Repr, DecidableEq

/-- The command line options (`options`); `logLevel` is a Go `uint32`,
modelled as `Nat`. -/
structure options where
  logLevel : Nat := 4
deriving Repr, DecidableEq

/-! ## Blocklist databases (`newBlocklistDB` / `newIPBlocklistDB`) -/

/-- A blocklist rule loader, recording which `rdns` loader constructor
`newBlocklistDB`/`newIPBlocklistDB` selected. -/
inductive Loader where
  | staticL (rules : List String)
  | httpL (source cacheDir : String)
  | fileL (source : String)
deriving Repr, DecidableEq

/-- A domain-name blocklist database, recording which `rdns` DB constructor
was selected for which loader. -/
inductive BlocklistDB where
  | regexpDB (l : Loader)
  | domainDB (l : Loader)
  | hostsDB (l : Loader)
  | multiDB (dbs : List BlocklistDB)
deriving Repr

/-- An IP blocklist database. -/
inductive IPBlocklistDB where
  | cidrDB (l : Loader)
  | geoIPDB (l : Loader) (locationDB : String)
  | multiIPDB (dbs : List IPBlocklistDB)
deriving Repr

/-- Errors produced by `newBlocklistDB` / `newIPBlocklistDB`. -/
inductive DBErr where
  | urlParse (source : String)
  | unsupportedScheme (scheme source : String)
  | unsupportedFormat (format : String)
deriving Repr, DecidableEq

/-- Modelled from Go's `net/url.Parse` (standard library): extract the URL
scheme of a string.  Returns an error for a string beginning with `:`
("missing protocol scheme"); otherwise the scheme is the longest prefix of
letters, digits, `+`, `-`, `.` starting with a letter and terminated by `:`,
and is empty when no such prefix exists.  Other failure modes of
`url.Parse` (control characters, malformed ports) are not modelled. -/
def schemeAux : List Char → List Char → Except Unit String
  | _, [] => .ok ""
  | acc, c :: rest =>
    if c = ':' then
      if acc.isEmpty then .error () else .ok (String.mk acc.reverse)
    else if c.isAlpha ∨ (¬acc.isEmpty ∧ (c.isDigit ∨ c = '+' ∨ c = '-' ∨ c = '.')) then
      schemeAux (c :: acc) rest
    else .ok ""

/-- Scheme of a source URL, see `schemeAux`. -/
def urlScheme (s : String) : Except Unit String := schemeAux [] s.data

/-- Embedding of `newBlocklistDB` (main.go:596-627).  The `rdns`
constructors `NewStaticLoader`, `NewHTTPLoader`, `NewFileLoader`,
`NewRegexpDB`, `NewDomainDB`, `NewHostsDB` are part of the resolver library
(not under `src/`) and are modelled as succeeding with a descriptive value. -/
def newBlocklistDB (l : ListCfg) (rules : List String) : Except DBErr BlocklistDB := do
  let scheme ← (urlScheme l.source).mapError fun _ => DBErr.urlParse l.source
  let loader ←
    if rules.length > 0 then
      Except.ok (Loader.staticL rules)
    else if scheme = "http" ∨ scheme = "https" then
      Except.ok (Loader.httpL l.source l.cacheDir)
    else if scheme = "" then
      Except.ok (Loader.fileL l.source)
    else
      Except.error (DBErr.unsupportedScheme scheme l.source)
  if l.format = "regexp" ∨ l.format = "" then
    Except.ok (.regexpDB loader)
  else if l.format = "domain" then
    Except.ok (.domainDB loader)
  else if l.format = "hosts" then
    Except.ok (.hostsDB loader)
  else
    Except.error (.unsupportedFormat l.format)

/-- Embedding of `newIPBlocklistDB` (main.go:629-659); library constructors
modelled as in `newBlocklistDB`. -/
def newIPBlocklistDB (l : ListCfg) (locationDB : String) (rules : List String) :
    Except DBErr IPBlocklistDB := do
  let scheme ← (urlScheme l.source).mapError fun _ => DBErr.urlParse l.source
  let loader ←
    if rules.length > 0 then
      Except.ok (Loader.staticL rules)
    else if scheme = "http" ∨ scheme = "https" then
      Except.ok (Loader.httpL l.source l.cacheDir)
    else if scheme = "" then
      Except.ok (Loader.fileL l.source)
    else
      Except.error (DBErr.unsupportedScheme scheme l.source)
  if l.format = "cidr" ∨ l.format = "" then
    Except.ok (.cidrDB loader)
  else if l.format = "location" then
    Except.ok (.geoIPDB loader locationDB)
  else
    Except.error (.unsupportedFormat l.format)

/-! ## Resolver values

`rdns.Resolver` is an interface; the value stored in the resolver map is
modelled as a descriptive inductive recording which `rdns` constructor
`main.go` called with which options.  The library constructors themselves
(out of scope of `src/`) are modelled as always succeeding. -/

/-- The ECS modifier function selected by the `ecs-modifier` case. -/
inductive ECSFunc where
  | addF (addr : String) (p4 p6 : Nat)
  | deleteF
  | privacyF (p4 p6 : Nat)
  | noneF
deriving Repr, DecidableEq

/-- The EDNS0 modifier function selected by the `edns0-modifier` case. -/
inductive EDNS0Func where
  | addF (code : Nat) (data : List Nat)
  | deleteF (code : Nat)
  | noneF
deriving Repr, DecidableEq

/-- One built route of a router, as produced by `rdns.NewRoute` followed by
`Route.Invert`; `α` is the resolver type (tied later). -/
structure RouteData (α : Type) where
  name : String
  rclass : String
  types : List String
  source : String
  invert : Bool
  resolver : α
deriving Repr

/-- A node of the resolver graph, keyed by id in the resolver map. -/
inductive RResolver where
  | leaf (id : String)
  | roundRobin (id : String) (children : List RResolver)
  | failRotate (id : String) (children : List RResolver)
  | failBack (id : String) (resetAfter : Duration) (children : List RResolver)
  | random (id : String) (resetAfter : Duration) (children : List RResolver)
  | blocklist (id : String) (child : RResolver) (db : BlocklistDB) (refresh : Duration)
  | blocklistV2 (id : String) (child : RResolver)
      (blockRes : Option RResolver) (bdb : BlocklistDB) (brefresh : Duration)
      (allowRes : Option RResolver) (adb : BlocklistDB) (arefresh : Duration)
  | replaceR (id : String) (child : RResolver) (ops : List ReplaceOp)
  | ttlModifier (id : String) (child : RResolver) (minTTL maxTTL : Nat)
  | ecsModifier (id : String) (child : RResolver) (f : ECSFunc)
  | edns0Modifier (id : String) (child : RResolver) (f : EDNS0Func)
  | cache (id : String) (child : RResolver) (gcPeriod : Duration)
      (capacity : Nat) (negativeTTL : Nat)
  | responseBlocklistIP (id : String) (child : RResolver)
      (blockRes : Option RResolver) (db : IPBlocklistDB) (refresh : Duration) (filter : Bool)
  | responseBlocklistName (id : String) (child : RResolver)
      (blockRes : Option RResolver) (db : BlocklistDB) (refresh : Duration)
  | clientBlocklist (id : String) (child : RResolver)
      (blockRes : Option RResolver) (db : IPBlocklistDB) (refresh : Duration)
  | staticResponder (id : String) (answer ns extra : List String) (rcode : Nat)
  | responseMinimize (id : String) (child : RResolver)
  | responseCollapse (id : String) (child : RResolver) (nullRCode : Nat)
  | drop (id : String)
  | rateLimiter (id : String) (child : RResolver)
      (requests window prefix4 prefix6 : Nat) (limitRes : Option RResolver)
  | router (id : String) (routes : List (RouteData RResolver))
deriving Repr

/-- A built route (element of a `RResolver.router`). -/
abbrev BRoute := RouteData RResolver

/-- The resolver map built by `start` (Go: `map[string]rdns.Resolver`). -/
abbrev RMap := List (String × RResolver)

/-! ## Errors -/

/-- Errors raised inside the kind dispatch of `instantiateGroup`
(everything except the child-reference check). -/
inductive GroupErr where
  | arity (gtype id : String)
  | staticWithSource (id : String)
  | staticAllowWithSource (id : String)
  | staticWithBlocklistSource (id : String)
  | dbErr (e : DBErr)
  | dbErrAt (id : String) (e : DBErr)
  | unsupportedECSOp (op : String)
  | unsupportedEDNS0Op (op : String)
  | unsupportedGroupType (gtype id : String)
  | indexOutOfRange
deriving Repr, DecidableEq

/-- The errors `start` can return.  `fuelExhausted` is an artifact of
modelling the unbounded Go loop `for len(deps) > 0` with fuel; it is proved
unreachable for the fuel `start` supplies. -/
inductive StartErr where
  | invalidLogLevel (level : Nat)
  | duplicateResolverId (id : String)
  | duplicateName (id : String)
  | unableToResolveDependencies
  | fuelExhausted
  | groupRefMissing (id rid : String)
  | group (e : GroupErr)
  | routerRefMissing (id rid : String)
  | routeParse (id : String)
  | listenerRefMissing (id rid : String)
  | unsupportedProtocol (proto id : String)
deriving Repr, DecidableEq

/-! ## Group instantiation (`instantiateGroup`, main.go:255-571) -/

/-- The child-resolution loop of `instantiateGroup` (main.go:257-265): look
up each referenced id, in order, failing on the first missing one. -/
def buildChildren (gid : String) : List String → RMap → Except StartErr (List RResolver)
  | [], _ => .ok []
  | rid :: rest, m =>
    match alookup m rid with
    | none => .error (.groupRefMissing gid rid)
    | some r => do
      let gr ← buildChildren gid rest m
      .ok (r :: gr)

/-- Build one blocklist DB per source entry, wrapping errors with the group
id (Go: `fmt.Errorf("%s: %w", id, err)`). -/
def mapDBs (id : String) : List ListCfg → Except GroupErr (List BlocklistDB)
  | [] => .ok []
  | s :: rest => do
    let db ← (newBlocklistDB s []).mapError (GroupErr.dbErrAt id)
    let dbs ← mapDBs id rest
    .ok (db :: dbs)

/-- Build one IP blocklist DB per source entry. -/
def mapIPDBs (id : String) (locationDB : String) : List ListCfg → Except GroupErr (List IPBlocklistDB)
  | [] => .ok []
  | s :: rest => do
    let db ← (newIPBlocklistDB s locationDB []).mapError (GroupErr.dbErrAt id)
    let dbs ← mapIPDBs id locationDB rest
    .ok (db :: dbs)

/-- The kind dispatch of `instantiateGroup` (the `switch g.Type` at
main.go:266-569), producing the resolver value stored at `resolvers[id]`.
`gr` is the already-built child list; `m` is read for the auxiliary
blocklist/allowlist/limit resolver options (a missing key yields Go `nil`,
here `none`).  The `cache` case follows the source in performing no arity
check: `gr[0]` on an empty slice is a Go runtime panic, modelled as
`GroupErr.indexOutOfRange`. -/
def groupValue (id : String) (g : Group) (gr : List RResolver) (m : RMap) :
    Except GroupErr RResolver :=
  if g.type = "round-robin" then
    .ok (.roundRobin id gr)
  else if g.type = "fail-rotate" then
    .ok (.failRotate id gr)
  else if g.type = "fail-back" then
    .ok (.failBack id timeMinute gr)
  else if g.type = "random" then
    .ok (.random id timeMinute gr)
  else if g.type = "blocklist" then
    match gr with
    | [c] =>
      if g.blocklist.length > 0 ∧ g.source ≠ "" then
        .error (.staticWithSource id)
      else
        match newBlocklistDB { format := g.format, source := g.source } g.blocklist with
        | .error e => .error (.dbErr e)
        | .ok db => .ok (.blocklist id c db (g.refresh * timeSecond))
    | _ => .error (.arity "blocklist" id)
  else if g.type = "blocklist-v2" then
    match gr with
    | [c] =>
      if g.blocklist.length > 0 ∧ g.blocklistSource.length > 0 then
        .error (.staticWithSource id)
      else if g.allowlist.length > 0 ∧ g.allowlistSource.length > 0 then
        .error (.staticAllowWithSource id)
      else do
        let bdb ←
          if g.blocklist.length > 0 then
            (newBlocklistDB { format := g.blocklistFormat } g.blocklist).mapError GroupErr.dbErr
          else do
            let dbs ← mapDBs id g.blocklistSource
            Except.ok (BlocklistDB.multiDB dbs)
        let adb ←
          if g.allowlist.length > 0 then
            (newBlocklistDB { format := g.blocklistFormat } g.allowlist).mapError GroupErr.dbErr
          else do
            let dbs ← mapDBs id g.allowlistSource
            Except.ok (BlocklistDB.multiDB dbs)
        Except.ok (.blocklistV2 id c
          (alookup m g.blockListResolver) bdb (g.blocklistRefresh * timeSecond)
          (alookup m g.allowListResolver) adb (g.allowlistRefresh * timeSecond))
    | _ => .error (.arity "blocklist-v2" id)
  else if g.type = "replace" then
    match gr with
    | [c] => .ok (.replaceR id c g.replace)
    | _ => .error (.arity "replace" id)
  else if g.type = "ttl-modifier" then
    match gr with
    | [c] => .ok (.ttlModifier id c g.ttlMin g.ttlMax)
    | _ => .error (.arity "ttl-modifier" id)
  else if g.type = "ecs-modifier" then
    match gr with
    | [c] =>
      if g.ecsOp = "add" then
        .ok (.ecsModifier id c (.addF g.ecsAddress g.ecsPrefix4 g.ecsPrefix6))
      else if g.ecsOp = "delete" then
        .ok (.ecsModifier id c .deleteF)
      else if g.ecsOp = "privacy" then
        .ok (.ecsModifier id c (.privacyF g.ecsPrefix4 g.ecsPrefix6))
      else if g.ecsOp = "" then
        .ok (.ecsModifier id c .noneF)
      else
        .error (.unsupportedECSOp g.ecsOp)
    | _ => .error (.arity "ecs-modifier" id)
  else if g.type = "edns0-modifier" then
    match gr with
    | [c] =>
      if g.edns0Op = "add" then
        .ok (.edns0Modifier id c (.addF g.edns0Code g.edns0Data))
      else if g.edns0Op = "delete" then
        .ok (.edns0Modifier id c (.deleteF g.edns0Code))
      else if g.edns0Op = "" then
        .ok (.edns0Modifier id c .noneF)
      else
        .error (.unsupportedEDNS0Op g.edns0Op)
    | _ => .error (.arity "edns0-modifier" id)
  else if g.type = "cache" then
    match gr with
    | c :: _ =>
      .ok (.cache id c (g.gcPeriod * timeSecond) g.cacheSize g.cacheNegativeTTL)
    | [] => .error .indexOutOfRange
  else if g.type = "response-blocklist-ip" ∨ g.type = "response-blocklist-cidr" then
    match gr with
    | [c] =>
      if g.blocklist.length > 0 ∧ g.blocklistSource.length > 0 then
        .error (.staticWithBlocklistSource id)
      else do
        let db ←
          if g.blocklist.length > 0 then
            (newIPBlocklistDB { format := g.blocklistFormat } g.locationDB g.blocklist).mapError
              GroupErr.dbErr
          else do
            let dbs ← mapIPDBs id g.locationDB g.blocklistSource
            Except.ok (IPBlocklistDB.multiIPDB dbs)
        Except.ok (.responseBlocklistIP id c (alookup m g.blockListResolver) db
          (g.blocklistRefresh * timeSecond) g.filter)
    | _ => .error (.arity "response-blocklist-ip" id)
  else if g.type = "response-blocklist-name" then
    match gr with
    | [c] =>
      if g.blocklist.length > 0 ∧ g.blocklistSource.length > 0 then
        .error (.staticWithBlocklistSource id)
      else do
        let db ←
          if g.blocklist.length > 0 then
            (newBlocklistDB { format := g.blocklistFormat } g.blocklist).mapError GroupErr.dbErr
          else do
            let dbs ← mapDBs id g.blocklistSource
            Except.ok (BlocklistDB.multiDB dbs)
        Except.ok (.responseBlocklistName id c (alookup m g.blockListResolver) db
          (g.blocklistRefresh * timeSecond))
    | _ => .error (.arity "response-blocklist-name" id)
  else if g.type = "client-blocklist" then
    match gr with
    | [c] =>
      if g.blocklist.length > 0 ∧ g.blocklistSource.length > 0 then
        .error (.staticWithBlocklistSource id)
      else do
        let db ←
          if g.blocklist.length > 0 then
            (newIPBlocklistDB { format := g.blocklistFormat } g.locationDB g.blocklist).mapError
              GroupErr.dbErr
          else do
            let dbs ← mapIPDBs id g.locationDB g.blocklistSource
            Except.ok (IPBlocklistDB.multiIPDB dbs)
        Except.ok (.clientBlocklist id c (alookup m g.blockListResolver) db
          (g.blocklistRefresh * timeSecond))
    | _ => .error (.arity "client-blocklist" id)
  else if g.type = "static-responder" then
    .ok (.staticResponder id g.answer g.ns g.extra g.rcode)
  else if g.type = "response-minimize" then
    match gr with
    | [c] => .ok (.responseMinimize id c)
    | _ => .error (.arity "response-minimize" id)
  else if g.type = "response-collapse" then
    match gr with
    | [c] => .ok (.responseCollapse id c g.nullRCode)
    | _ => .error (.arity "response-collapse" id)
  else if g.type = "drop" then
    .ok (.drop id)
  else if g.type = "rate-limiter" then
    match gr with
    | [c] =>
      .ok (.rateLimiter id c g.requests g.window g.prefix4 g.prefix6 (alookup m g.limitResolver))
    | _ => .error (.arity "rate-limiter" id)
  else
    .error (.unsupportedGroupType g.type id)

/-- Embedding of `instantiateGroup` (main.go:256-571): build the children,
dispatch on the kind, and store the result at `resolvers[id]`. -/
def instantiateGroup (id : String) (g : Group) (m : RMap) : Except StartErr RMap := do
  let gr ← buildChildren id g.resolvers m
  match groupValue id g gr m with
  | .error e => .error (.group e)
  | .ok v => .ok (upsert m id v)

/-! ## Router instantiation (`instantiateRouter`, main.go:573-594) -/

/-- Modelled from the spec: `rdns.NewRoute` (resolver library, not under
`src/`) compiles a route; "Route compilation validates that the name pattern
is a well-formed regular expression and that the source CIDR parses" (these
validations are modelled as succeeding) and "Type set is deduplicated". -/
def newRoute (name rclass : String) (types : List String) (source : String)
    (res : RResolver) : Except Unit BRoute :=
  .ok { name := name, rclass := rclass, types := types.dedup, source := source,
        invert := false, resolver := res }

/-- Modelled from the spec: a built route's type predicate matches a query
type when the type set is empty ("An empty predicate field matches
everything") or contains it ("type ∈ types set"). -/
def routeTypeMatches (types : List String) (qtype : String) : Bool :=
  types.isEmpty || types.contains qtype

/-- One iteration of the route loop of `instantiateRouter`
(main.go:576-591): resolve the target, merge the deprecated singular `Type`
into `Types`, call `NewRoute` and apply `Invert`. -/
def buildRoute (rid : String) (rt : RouteCfg) (m : RMap) : Except StartErr BRoute :=
  match alookup m rt.resolver with
  | none => .error (.routerRefMissing rid rt.resolver)
  | some res =>
    let types := rt.types ++ (if rt.type ≠ "" then [rt.type] else [])
    match newRoute rt.name rt.rclass types rt.source res with
    | .error _ => .error (.routeParse rid)
    | .ok r => .ok { r with invert := rt.invert }

/-- The route loop of `instantiateRouter`, in declaration order. -/
def buildRoutes (rid : String) : List RouteCfg → RMap → Except StartErr (List BRoute)
  | [], _ => .ok []
  | rt :: rest, m => do
    let r ← buildRoute rid rt m
    let rs ← buildRoutes rid rest m
    .ok (r :: rs)

/-- Embedding of `instantiateRouter` (main.go:574-594). -/
def instantiateRouter (id : String) (r : Router) (m : RMap) : Except StartErr RMap := do
  let routes ← buildRoutes id r.routes m
  .ok (upsert m id (.router id routes))

/-! ## The assembler (`start`, main.go:54-253) -/

/-- Modelled from the spec: `resolverFromConfig` (declared elsewhere in
`cmd/routedns`, not under `src/`) instantiates a leaf upstream resolver from
its definition; "Instantiate all leaves immediately; insert into an
id → Resolver map".  Modelled as always succeeding with a leaf node. -/
def resolverFromConfig (id : String) (_r : ResolverCfg) : RResolver := .leaf id

/-- The resolver loop of `start` (main.go:83-91): duplicate check, then
instantiate and insert.  (With Go map semantics the keys of
`config.Resolvers` are distinct, so the duplicate branch cannot fire; it is
kept faithfully.) -/
def buildResolvers : List (String × ResolverCfg) → RMap → Except StartErr RMap
  | [], m => .ok m
  | (id, r) :: rest, m =>
    if (alookup m id).isSome then .error (.duplicateResolverId id)
    else buildResolvers rest (upsert m id (resolverFromConfig id r))

/-- The dependency list recorded for a group (main.go:102-112): its child
resolvers plus the non-empty auxiliary blocklist/allowlist/limit resolver
references. -/
def groupDeps (g : Group) : List String :=
  g.resolvers
    ++ (if g.blockListResolver ≠ "" then [g.blockListResolver] else [])
    ++ (if g.allowListResolver ≠ "" then [g.allowListResolver] else [])
    ++ (if g.limitResolver ≠ "" then [g.limitResolver] else [])

/-- The dependency list recorded for a router (main.go:119-121): the target
resolver of each route. -/
def routerDeps (r : Router) : List String := r.routes.map (·.resolver)

/-- The group half of the dependency-map construction (main.go:97-113):
duplicate check against the map built so far, then record the group's
dependencies. -/
def addGroupDeps : List (String × Group) → List (String × List String) →
    Except StartErr (List (String × List String))
  | [], acc => .ok acc
  | (id, g) :: rest, acc =>
    if (alookup acc id).isSome then .error (.duplicateName id)
    else addGroupDeps rest (acc ++ [(id, groupDeps g)])

/-- The router half of the dependency-map construction (main.go:114-122).
A router with no routes performs the duplicate check but records no entry
(Go only assigns `deps[id]` inside the loop over the routes). -/
def addRouterDeps : List (String × Router) → List (String × List String) →
    Except StartErr (List (String × List String))
  | [], acc => .ok acc
  | (id, r) :: rest, acc =>
    if (alookup acc id).isSome then .error (.duplicateName id)
    else if r.routes.isEmpty then addRouterDeps rest acc
    else addRouterDeps rest (acc ++ [(id, routerDeps r)])

/-- The full dependency map of a configuration (main.go:96-122). -/
def buildDeps (cfg : Config) : Except StartErr (List (String × List String)) := do
  let d1 ← addGroupDeps cfg.groups []
  addRouterDeps cfg.routers d1

/-- Whether every recorded dependency is present in the resolver map
(the inner loop at main.go:131-135). -/
def depsMet (m : RMap) (ds : List String) : Bool :=
  ds.all fun d => (alookup m d).isSome

/-- The group half of instantiating a node (the `if g, ok :=
config.Groups[id]` branch, main.go:138-142). -/
def instantiateNodeGroup (cfg : Config) (id : String) (m : RMap) : Except StartErr RMap :=
  match alookup cfg.groups id with
  | some g => instantiateGroup id g m
  | none => .ok m

/-- The router half of instantiating a node (the `if r, ok :=
config.Routers[id]` branch, main.go:143-147). -/
def instantiateNodeRouter (cfg : Config) (id : String) (m : RMap) : Except StartErr RMap :=
  match alookup cfg.routers id with
  | some r => instantiateRouter id r m
  | none => .ok m

/-- Instantiating the node `id` once its dependencies are available
(main.go:138-147): try it as a group, then as a router. -/
def instantiateNode (cfg : Config) (id : String) (m : RMap) : Except StartErr RMap :=
  instantiateNodeGroup cfg id m >>= instantiateNodeRouter cfg id

/-- One pass of the fixed-point loop (the `node:` loop at main.go:129-150):
walk the remaining dependency entries; instantiate and drop every entry
whose dependencies are all present, keep the others.  Returns the grown
resolver map, the remaining entries, and whether any node was instantiated
(`found`).  Go iterates the `deps` map in unspecified order; the entry list
order here stands for one such order, and the theorems below quantify over
all entry lists. -/
def pass (cfg : Config) : List (String × List String) → RMap →
    Except StartErr (RMap × List (String × List String) × Bool)
  | [], m => .ok (m, [], false)
  | (id, ds) :: rest, m =>
    if depsMet m ds then do
      let m1 ← instantiateNode cfg id m
      let (m2, rest2, _) ← pass cfg rest m1
      .ok (m2, rest2, true)
    else do
      let (m2, rest2, found) ← pass cfg rest m
      .ok (m2, (id, ds) :: rest2, found)

/-- The fixed-point loop `for len(deps) > 0` (main.go:127-154), with fuel.
A pass that instantiates nothing fails with `unableToResolveDependencies`
(main.go:151-153).  `start` supplies fuel equal to the number of entries,
which is proved sufficient (`fuelExhausted` is unreachable). -/
def resolveLoop (cfg : Config) : Nat → List (String × List String) → RMap →
    Except StartErr RMap
  | 0, deps, m => if deps.isEmpty then .ok m else .error .fuelExhausted
  | fuel + 1, deps, m =>
    if deps.isEmpty then .ok m
    else do
      let (m1, deps1, found) ← pass cfg deps m
      if found then resolveLoop cfg fuel deps1 m1
      else .error .unableToResolveDependencies

/-- A listener as built by the protocol switch (main.go:172-238).  The
listener constructors of the resolver library (`NewDNSListener`,
`NewAdminListener`, `NewDoTListener`, `NewDTLSListener`, `NewDoHListener`,
`NewQUICListener`) and the TLS/DTLS config loaders are out of scope of
`src/` (the spec treats listeners as external adapters) and are modelled as
succeeding; the resolver argument is the possibly-nil interface value Go
passes (`none` only reachable for `admin`). -/
inductive BuiltListener where
  | dns (id addr net : String) (resolver : Option RResolver)
  | admin (id addr : String)
  | dot (id addr : String) (resolver : Option RResolver)
  | dtls (id addr : String) (resolver : Option RResolver)
  | doh (id addr transport : String) (resolver : Option RResolver)
  | doq (id addr : String) (resolver : Option RResolver)
deriving Repr

/-- The protocol switch of the listener loop (main.go:172-238).
`parseCIDRList` (declared elsewhere in `cmd/routedns`, not under `src/`)
and the CIDR parse of the trusted-proxy option are modelled as succeeding. -/
def buildListenerProto (id : String) (l : Listener) (res : Option RResolver) :
    Except StartErr BuiltListener :=
  if l.protocol = "tcp" then
    .ok (.dns id l.address "tcp" res)
  else if l.protocol = "udp" then
    .ok (.dns id l.address "udp" res)
  else if l.protocol = "admin" then
    .ok (.admin id l.address)
  else if l.protocol = "dot" then
    .ok (.dot id l.address res)
  else if l.protocol = "dtls" then
    .ok (.dtls id l.address res)
  else if l.protocol = "doh" then
    .ok (.doh id l.address l.transport res)
  else if l.protocol = "doq" then
    .ok (.doq id l.address res)
  else
    .error (.unsupportedProtocol l.protocol id)

/-- One iteration of the listener loop (main.go:158-239): resolve the root
reference, fail if it is missing unless the protocol is `admin`
(main.go:159-163), then build by protocol. -/
def buildListenerStep (m : RMap) (id : String) (l : Listener) : Except StartErr BuiltListener :=
  if (alookup m l.resolver).isNone ∧ l.protocol ≠ "admin" then
    .error (.listenerRefMissing id l.resolver)
  else buildListenerProto id l (alookup m l.resolver)

/-- The listener loop (main.go:157-239), in map order. -/
def buildListeners (m : RMap) : List (String × Listener) → Except StartErr (List BuiltListener)
  | [] => .ok []
  | (id, l) :: rest => do
    let bl ← buildListenerStep m id l
    let bls ← buildListeners m rest
    .ok (bl :: bls)

/-- The result of a successful assembly: the applied log level, the final
resolver map and the built listeners.  In Go, `start` then launches one
supervisor goroutine per listener and blocks on `select {}`; reaching that
point is modelled as returning this record. -/
structure Assembled where
  logLevel : Nat
  resolvers : RMap
  listeners : List BuiltListener
deriving Repr

/-- The assembly `start` performs after the log-level check
(main.go:61-252).  `loadConfig` is outside `src/`, so the parsed `cfg` is
taken as input; the bootstrap-resolver branch (main.go:69-75) instantiates a
leaf and replaces `net.DefaultResolver`, which has no observable effect on
the assembly and is modelled as a no-op. -/
def assemble (opt : options) (cfg : Config) : Except StartErr Assembled := do
  let m0 ← buildResolvers cfg.resolvers []
  let deps ← buildDeps cfg
  let m ← resolveLoop cfg deps.length deps m0
  let ls ← buildListeners m cfg.listeners
  .ok { logLevel := opt.logLevel, resolvers := m, listeners := ls }

/-- Embedding of `start` (main.go:54-253): reject a log level above 6
(main.go:56-58) before anything else, otherwise apply the level and
assemble. -/
def start (opt : options) (cfg : Config) : Except StartErr Assembled :=
  if opt.logLevel > 6 then .error (.invalidLogLevel opt.logLevel)
  else assemble opt cfg

/-! ## Derived notions used by the claims -/

/-- The ids defined as groups or routers. -/
def nodeIds (cfg : Config) : List String := keys cfg.groups ++ keys cfg.routers

/-- Every id defined anywhere in the configuration. -/
def definedIds (cfg : Config) : List String := keys cfg.resolvers ++ nodeIds cfg

/-- The ids a group or router node references (its dependency-relation
successors): the recorded group dependencies and route targets. -/
def nodeRefs (cfg : Config) (id : String) : List String :=
  (match alookup cfg.groups id with | some g => groupDeps g | none => [])
    ++ (match alookup cfg.routers id with | some r => routerDeps r | none => [])

/-- The group/router dependency relation contains a cycle: some nonempty id
set has, at every member, a reference back into the set (the vertex set of
a cycle is such a set, and such a set always contains a cycle). -/
def HasCycle (cfg : Config) : Prop :=
  ∃ S : List String, S ≠ [] ∧ ∀ id ∈ S, id ∈ nodeIds cfg ∧ ∃ d ∈ nodeRefs cfg id, d ∈ S

/-- Some group or router references an id that is never defined. -/
def HasDanglingRef (cfg : Config) : Prop :=
  ∃ id ∈ nodeIds cfg, ∃ d ∈ nodeRefs cfg id, d ∉ definedIds cfg

/-- Whether a result is a duplicate-name error (main.go:100/117). -/
def isDupNameResult : Except StartErr Assembled → Bool
  | .error (.duplicateName _) => true
  | _ => false

/-- An entry of the dependency map is well formed for the configuration: a
group entry records exactly the group's dependency list and its id is not
also a router; a router entry's id is not a group, and the routes' targets
are covered by the recorded list (or the looked-up router has no routes,
which only arises for key lists no Go map can produce). -/
def GoodEntry (cfg : Config) (p : String × List String) : Prop :=
  (∃ g, alookup cfg.groups p.1 = some g ∧ p.2 = groupDeps g ∧ alookup cfg.routers p.1 = none)
    ∨ (alookup cfg.groups p.1 = none ∧
        ∃ r, alookup cfg.routers p.1 = some r ∧ (routerDeps r ⊆ p.2 ∨ r.routes = []))

/-- A set of ids that can never be instantiated: none of its members is in
the resolver map, and every dependency-map entry keyed by a member has a
dependency inside the set. -/
def Absent (A : List String) (deps : List (String × List String)) (m : RMap) : Prop :=
  (∀ a ∈ A, alookup m a = none) ∧ ∀ a ∈ A, ∀ ds, (a, ds) ∈ deps → ∃ d ∈ ds, d ∈ A

/-- Whether a result is one of the "references non-existant resolver, group
or router" errors of `instantiateGroup`/`instantiateRouter`. -/
def isRefMissingResult : Except StartErr Assembled → Bool
  | .error (.groupRefMissing _ _) => true
  | .error (.routerRefMissing _ _) => true
  | _ => false

/-- Whether a result is the fuel-exhaustion marker of the loop model. -/
def isFuelExhaustedResult : Except StartErr Assembled → Bool
  | .error .fuelExhausted => true
  | _ => false

/-! ## Concrete configurations used in witnesses and counterexamples -/

/-- A configuration whose group dependency relation has the cycle
x → y → x, while the id `x` is also defined as a leaf resolver. -/
def cfgCycleSharedId : Config :=
  { resolvers := [("x", {})],
    groups := [("x", { type := "round-robin", resolvers := ["y"] }),
               ("y", { type := "round-robin", resolvers := ["x"] })] }

/-- A configuration with a pure dependency cycle a → b → a and no other
definitions. -/
def cfgPureCycle : Config :=
  { groups := [("a", { type := "round-robin", resolvers := ["b"] }),
               ("b", { type := "round-robin", resolvers := ["a"] })] }

/-- A configuration defining the id `x` both as a resolver and as a group. -/
def cfgResolverGroupClash : Config :=
  { resolvers := [("x", {})], groups := [("x", { type := "drop" })] }

/-- A configuration defining the id `a` both as a group and as a router. -/
def cfgGroupRouterClash : Config :=
  { groups := [("a", { type := "drop" })],
    routers := [("a", { routes := [{ resolver := "r" }] })] }

/-- A `cache` group with no child resolver (`gr` will be empty). -/
def cacheGroupNoChild : Group := { type := "cache" }

/-- A `cache` group with two child resolvers. -/
def cacheGroupTwoChildren : Group := { type := "cache", resolvers := ["u1", "u2"] }

/-- A resolver map providing two leaf resolvers. -/
def mapTwoLeaves : RMap := [("u1", .leaf "u1"), ("u2", .leaf "u2")]

/-- A fail-back group over one upstream. -/
def failBackGroup : Group := { type := "fail-back", resolvers := ["u1"] }

/-- A route with both the deprecated singular `type` and a `types` list. -/
def routeBothTypes : RouteCfg := { type := "A", types := ["AAAA", "A"], resolver := "u1" }

/-- A tcp listener referencing an undefined resolver id. -/
def tcpListenerMissing : Listener := { protocol := "tcp", resolver := "r0" }

/-! # Theorems

First the generic association-list lemmas, then structural lemmas about the
assembler stages, then the claim theorems. -/

theorem except_bind_ok {ε α β : Type} (a : α) (f : α → Except ε β) :
    (Except.ok a >>= f) = f a := rfl

theorem except_bind_err {ε α β : Type} (e : ε) (f : α → Except ε β) :
    ((Except.error e : Except ε α) >>= f) = .error e := rfl

theorem keys_nil {α : Type} : keys ([] : List (String × α)) = [] := rfl

theorem keys_cons {α : Type} (k : String) (v : α) (rest : List (String × α)) :
    keys ((k, v) :: rest) = k :: keys rest := rfl

theorem alookup_isSome_iff {α : Type} (m : List (String × α)) (x : String) :
    (alookup m x).isSome ↔ x ∈ keys m := by
  induction m with
  | nil => simp [alookup, keys_nil]
  | cons p rest ih =>
    obtain ⟨k, v⟩ := p
    by_cases h : k = x <;> simp [alookup, keys_cons, h, ih]
    exact fun hx => (h hx.symm).elim

theorem alookup_eq_none_iff {α : Type} (m : List (String × α)) (x : String) :
    alookup m x = none ↔ x ∉ keys m := by
  rw [← alookup_isSome_iff, Option.isSome_iff_ne_none]
  tauto

theorem alookup_mem {α : Type} {m : List (String × α)} {x : String} {v : α}
    (h : alookup m x = some v) : (x, v) ∈ m := by
  induction m with
  | nil => simp [alookup] at h
  | cons p rest ih =>
    obtain ⟨k, w⟩ := p
    by_cases hk : k = x
    · simp [alookup, hk] at h
      simp [hk, h]
    · simp [alookup, hk] at h
      simp [ih h]

theorem mem_keys_of_mem {α : Type} {m : List (String × α)} {p : String × α}
    (h : p ∈ m) : p.1 ∈ keys m := List.mem_map_of_mem _ h

theorem alookup_append_some {α : Type} {m1 : List (String × α)} (m2 : List (String × α))
    {x : String} {v : α} (h : alookup m1 x = some v) : alookup (m1 ++ m2) x = some v := by
  induction m1 with
  | nil => simp [alookup] at h
  | cons p rest ih =>
    obtain ⟨k, w⟩ := p
    by_cases hk : k = x <;> simp [alookup, hk] at h ⊢ <;> simp_all

theorem alookup_append_none {α : Type} {m1 : List (String × α)} (m2 : List (String × α))
    {x : String} (h : alookup m1 x = none) : alookup (m1 ++ m2) x = alookup m2 x := by
  induction m1 with
  | nil => simp
  | cons p rest ih =>
    obtain ⟨k, w⟩ := p
    by_cases hk : k = x
    · simp [alookup, hk] at h
    · simp [alookup, hk] at h ⊢
      simp_all

theorem alookup_append_isSome {α : Type} {m1 : List (String × α)} (m2 : List (String × α))
    {x : String} (h : (alookup m1 x).isSome) : (alookup (m1 ++ m2) x).isSome := by
  obtain ⟨v, hv⟩ := Option.isSome_iff_exists.mp h
  simp [alookup_append_some m2 hv]

theorem alookup_upsert {α : Type} (m : List (String × α)) (k x : String) (v : α) :
    alookup (upsert m k v) x = if k = x then some v else alookup m x := by
  induction m with
  | nil => simp [upsert, alookup]
  | cons p rest ih =>
    obtain ⟨k', v'⟩ := p
    by_cases h1 : k' = k
    · by_cases h2 : k = x <;> simp [upsert, alookup, h1, h2]
    · by_cases h2 : k' = x
      · subst h2
        have hkx : ¬k = k' := fun h => h1 h.symm
        simp [upsert, alookup, h1, hkx]
      · simp [upsert, alookup, h1, h2, ih]

theorem alookup_filter {α : Type} (P : String × α → Bool) (m : List (String × α))
    (x : String) (r : α) (h : alookup m x = some r) (hP : P (x, r) = true) :
    alookup (m.filter P) x = some r := by
  induction m with
  | nil => simp [alookup] at h
  | cons p rest ih =>
    obtain ⟨k, w⟩ := p
    by_cases hk : k = x
    · subst hk
      simp [alookup] at h
      subst h
      simp [List.filter, hP, alookup]
    · simp [alookup, hk] at h
      cases hp : P (k, w) <;> simp [List.filter, hp, alookup, hk, ih h]

/-! ## Structural lemmas: group instantiation -/

theorem buildChildren_ok_of_met (gid : String) (rids : List String) (m : RMap)
    (h : ∀ r ∈ rids, (alookup m r).isSome) :
    ∃ gr, buildChildren gid rids m = .ok gr := by
  induction rids with
  | nil => exact ⟨[], rfl⟩
  | cons r rest ih =>
    obtain ⟨v, hv⟩ := Option.isSome_iff_exists.mp (h r (by simp))
    obtain ⟨gr, hgr⟩ := ih fun x hx => h x (by simp [hx])
    exact ⟨v :: gr, by simp [buildChildren, hv, hgr, except_bind_ok]⟩

theorem buildChildren_error_shape (gid : String) (rids : List String) (m : RMap) (e : StartErr)
    (h : buildChildren gid rids m = .error e) : ∃ rid, e = .groupRefMissing gid rid := by
  induction rids with
  | nil => simp [buildChildren] at h
  | cons r rest ih =>
    cases hv : alookup m r with
    | none =>
      simp [buildChildren, hv] at h
      exact ⟨r, h.symm⟩
    | some v =>
      simp only [buildChildren, hv] at h
      cases hgr : buildChildren gid rest m with
      | error e2 =>
        rw [hgr] at h
        have h2 : (Except.error e2 : Except StartErr (List RResolver)) = Except.error e := h
        injection h2 with h3
        subst h3
        exact ih hgr
      | ok gr =>
        rw [hgr] at h
        simp [except_bind_ok] at h

theorem instantiateGroup_eq (id : String) (g : Group) (m : RMap) (gr : List RResolver)
    (v : RResolver) (hc : buildChildren id g.resolvers m = .ok gr)
    (hv : groupValue id g gr m = .ok v) :
    instantiateGroup id g m = .ok (upsert m id v) := by
  simp [instantiateGroup, hc, hv, except_bind_ok]

theorem instantiateGroup_ok_shape (id : String) (g : Group) (m m' : RMap)
    (h : instantiateGroup id g m = .ok m') : ∃ v, m' = upsert m id v := by
  unfold instantiateGroup at h
  cases hc : buildChildren id g.resolvers m with
  | error e =>
    rw [hc] at h
    simp [except_bind_err] at h
  | ok gr =>
    rw [hc] at h
    simp only [except_bind_ok] at h
    cases hv : groupValue id g gr m with
    | error e =>
      rw [hv] at h
      simp at h
    | ok v =>
      rw [hv] at h
      simp at h
      exact ⟨v, h.symm⟩

theorem instantiateGroup_error_shape (id : String) (g : Group) (m : RMap) (e : StartErr)
    (h : instantiateGroup id g m = .error e) :
    (∃ rid, e = .groupRefMissing id rid) ∨ ∃ ge, e = .group ge := by
  unfold instantiateGroup at h
  cases hc : buildChildren id g.resolvers m with
  | error e2 =>
    rw [hc] at h
    simp only [except_bind_err, Except.error.injEq] at h
    exact .inl (h ▸ buildChildren_error_shape id g.resolvers m e2 hc)
  | ok gr =>
    rw [hc] at h
    simp only [except_bind_ok] at h
    cases hv : groupValue id g gr m with
    | error ge =>
      rw [hv] at h
      simp at h
      exact .inr ⟨ge, h.symm⟩
    | ok v =>
      rw [hv] at h
      simp at h

theorem instantiateGroup_met_error_group (id : String) (g : Group) (m : RMap) (e : StartErr)
    (hmet : ∀ r ∈ g.resolvers, (alookup m r).isSome)
    (h : instantiateGroup id g m = .error e) : ∃ ge, e = .group ge := by
  rcases instantiateGroup_error_shape id g m e h with ⟨rid, rfl⟩ | hok
  · obtain ⟨gr, hgr⟩ := buildChildren_ok_of_met id g.resolvers m hmet
    unfold instantiateGroup at h
    rw [hgr] at h
    simp only [except_bind_ok] at h
    cases hv : groupValue id g gr m with
    | error ge =>
      rw [hv] at h
      simp at h
    | ok v =>
      rw [hv] at h
      simp at h
  · exact hok

/-! ## Structural lemmas: router instantiation -/

theorem buildRoute_ok_of_met (rid : String) (rt : RouteCfg) (m : RMap)
    (h : (alookup m rt.resolver).isSome) : ∃ r, buildRoute rid rt m = .ok r := by
  obtain ⟨res, hres⟩ := Option.isSome_iff_exists.mp h
  cases hb : buildRoute rid rt m with
  | ok r => exact ⟨r, rfl⟩
  | error e =>
    exfalso
    unfold buildRoute at hb
    rw [hres] at hb
    simp [newRoute] at hb

theorem buildRoute_error_shape (rid : String) (rt : RouteCfg) (m : RMap) (e : StartErr)
    (h : buildRoute rid rt m = .error e) : e = .routerRefMissing rid rt.resolver := by
  unfold buildRoute at h
  cases hres : alookup m rt.resolver with
  | none =>
    rw [hres] at h
    simp at h
    exact h.symm
  | some res =>
    rw [hres] at h
    simp [newRoute] at h

theorem buildRoutes_ok_of_met (rid : String) (rts : List RouteCfg) (m : RMap)
    (h : ∀ rt ∈ rts, (alookup m rt.resolver).isSome) :
    ∃ rs, buildRoutes rid rts m = .ok rs := by
  induction rts with
  | nil => exact ⟨[], rfl⟩
  | cons rt rest ih =>
    obtain ⟨r, hr⟩ := buildRoute_ok_of_met rid rt m (h rt (by simp))
    obtain ⟨rs, hrs⟩ := ih fun x hx => h x (by simp [hx])
    exact ⟨r :: rs, by simp [buildRoutes, hr, hrs, except_bind_ok]⟩

theorem buildRoutes_error_shape (rid : String) (rts : List RouteCfg) (m : RMap) (e : StartErr)
    (h : buildRoutes rid rts m = .error e) : ∃ x, e = .routerRefMissing rid x := by
  induction rts with
  | nil => simp [buildRoutes] at h
  | cons rt rest ih =>
    simp only [buildRoutes] at h
    cases hr : buildRoute rid rt m with
    | error e2 =>
      rw [hr] at h
      simp only [except_bind_err, Except.error.injEq] at h
      exact ⟨rt.resolver, h ▸ buildRoute_error_shape rid rt m e2 hr⟩
    | ok r =>
      rw [hr] at h
      simp only [except_bind_ok] at h
      cases hrs : buildRoutes rid rest m with
      | error e2 =>
        rw [hrs] at h
        simp only [except_bind_err, Except.error.injEq] at h
        subst h
        exact ih hrs
      | ok rs =>
        rw [hrs] at h
        simp [except_bind_ok] at h

theorem instantiateRouter_ok_shape (id : String) (r : Router) (m m' : RMap)
    (h : instantiateRouter id r m = .ok m') :
    ∃ routes, m' = upsert m id (.router id routes) := by
  unfold instantiateRouter at h
  cases hrs : buildRoutes id r.routes m with
  | error e =>
    rw [hrs] at h
    simp [except_bind_err] at h
  | ok rs =>
    rw [hrs] at h
    simp [except_bind_ok] at h
    exact ⟨rs, h.symm⟩

theorem instantiateRouter_error_shape (id : String) (r : Router) (m : RMap) (e : StartErr)
    (h : instantiateRouter id r m = .error e) : ∃ x, e = .routerRefMissing id x := by
  unfold instantiateRouter at h
  cases hrs : buildRoutes id r.routes m with
  | error e2 =>
    rw [hrs] at h
    simp only [except_bind_err, Except.error.injEq] at h
    exact h ▸ buildRoutes_error_shape id r.routes m e2 hrs
  | ok rs =>
    rw [hrs] at h
    simp [except_bind_ok] at h

theorem instantiateRouter_ok_of_met (id : String) (r : Router) (m : RMap)
    (h : ∀ rt ∈ r.routes, (alookup m rt.resolver).isSome) :
    ∃ m', instantiateRouter id r m = .ok m' := by
  obtain ⟨rs, hrs⟩ := buildRoutes_ok_of_met id r.routes m h
  exact ⟨upsert m id (.router id rs), by simp [instantiateRouter, hrs, except_bind_ok]⟩

/-! ## Structural lemmas: node instantiation -/

theorem bind_ok_inv {ε α β : Type} {x : Except ε α} {f : α → Except ε β} {b : β}
    (h : (x >>= f) = .ok b) : ∃ a, x = .ok a ∧ f a = .ok b := by
  cases x with
  | error e => exact Except.noConfusion h
  | ok a => exact ⟨a, rfl, h⟩

theorem bind_error_inv {ε α β : Type} {x : Except ε α} {f : α → Except ε β} {e : ε}
    (h : (x >>= f) = .error e) : x = .error e ∨ ∃ a, x = .ok a ∧ f a = .error e := by
  cases x with
  | error e2 =>
    have h2 : (Except.error e2 : Except ε β) = .error e := h
    injection h2 with h3
    exact .inl (by rw [h3])
  | ok a => exact .inr ⟨a, rfl, h⟩

theorem instantiateNodeGroup_none {cfg : Config} {id : String} (m : RMap)
    (hg : alookup cfg.groups id = none) : instantiateNodeGroup cfg id m = .ok m := by
  simp [instantiateNodeGroup, hg]

theorem instantiateNodeGroup_some {cfg : Config} {id : String} {g : Group} (m : RMap)
    (hg : alookup cfg.groups id = some g) :
    instantiateNodeGroup cfg id m = instantiateGroup id g m := by
  simp [instantiateNodeGroup, hg]

theorem instantiateNodeRouter_none {cfg : Config} {id : String} (m : RMap)
    (hr : alookup cfg.routers id = none) : instantiateNodeRouter cfg id m = .ok m := by
  simp [instantiateNodeRouter, hr]

theorem instantiateNodeRouter_some {cfg : Config} {id : String} {r : Router} (m : RMap)
    (hr : alookup cfg.routers id = some r) :
    instantiateNodeRouter cfg id m = instantiateRouter id r m := by
  simp [instantiateNodeRouter, hr]

theorem instantiateNodeGroup_ok_lookup (cfg : Config) (id : String) (m m1 : RMap)
    (h : instantiateNodeGroup cfg id m = .ok m1) (x : String) (hx : ¬id = x) :
    alookup m1 x = alookup m x := by
  cases hg : alookup cfg.groups id with
  | none =>
    rw [instantiateNodeGroup_none m hg] at h
    injection h with h3
    rw [← h3]
  | some g =>
    rw [instantiateNodeGroup_some m hg] at h
    obtain ⟨v, rfl⟩ := instantiateGroup_ok_shape id g m m1 h
    simp [alookup_upsert, hx]

theorem instantiateNodeRouter_ok_lookup (cfg : Config) (id : String) (m m1 : RMap)
    (h : instantiateNodeRouter cfg id m = .ok m1) (x : String) (hx : ¬id = x) :
    alookup m1 x = alookup m x := by
  cases hr : alookup cfg.routers id with
  | none =>
    rw [instantiateNodeRouter_none m hr] at h
    injection h with h3
    rw [← h3]
  | some r =>
    rw [instantiateNodeRouter_some m hr] at h
    obtain ⟨routes, rfl⟩ := instantiateRouter_ok_shape id r m m1 h
    simp [alookup_upsert, hx]

theorem instantiateNode_ok_lookup (cfg : Config) (id : String) (m m' : RMap)
    (h : instantiateNode cfg id m = .ok m') (x : String) (hx : ¬id = x) :
    alookup m' x = alookup m x := by
  unfold instantiateNode at h
  obtain ⟨m1, hm1, h2⟩ := bind_ok_inv h
  rw [instantiateNodeRouter_ok_lookup cfg id m1 m' h2 x hx]
  exact instantiateNodeGroup_ok_lookup cfg id m m1 hm1 x hx

theorem instantiateNode_error_shape (cfg : Config) (id : String) (m : RMap) (e : StartErr)
    (h : instantiateNode cfg id m = .error e) :
    (∃ rid, e = .groupRefMissing id rid) ∨ (∃ ge, e = .group ge)
      ∨ ∃ rid, e = .routerRefMissing id rid := by
  unfold instantiateNode at h
  rcases bind_error_inv h with h1 | ⟨m1, hm1, h2⟩
  · cases hg : alookup cfg.groups id with
    | none =>
      rw [instantiateNodeGroup_none m hg] at h1
      exact Except.noConfusion h1
    | some g =>
      rw [instantiateNodeGroup_some m hg] at h1
      rcases instantiateGroup_error_shape id g m e h1 with hs | hs
      · exact .inl hs
      · exact .inr (.inl hs)
  · cases hr : alookup cfg.routers id with
    | none =>
      rw [instantiateNodeRouter_none m1 hr] at h2
      exact Except.noConfusion h2
    | some r =>
      rw [instantiateNodeRouter_some m1 hr] at h2
      exact .inr (.inr (instantiateRouter_error_shape id r m1 e h2))

theorem depsMet_resolvers {m : RMap} {g : Group} (h : depsMet m (groupDeps g) = true) :
    ∀ r ∈ g.resolvers, (alookup m r).isSome := by
  intro r hr
  exact List.all_eq_true.mp h r (by simp [groupDeps, hr])

theorem depsMet_routes {m : RMap} {r : Router} {ds : List String}
    (hsub : routerDeps r ⊆ ds) (h : depsMet m ds = true) :
    ∀ rt ∈ r.routes, (alookup m rt.resolver).isSome := by
  intro rt hrt
  exact List.all_eq_true.mp h rt.resolver (hsub (by simp [routerDeps]; exact ⟨rt, hrt, rfl⟩))

theorem instantiateRouter_good_ok (p : String × List String) (r : Router) (m : RMap)
    (hdisj : routerDeps r ⊆ p.2 ∨ r.routes = []) (hmet : depsMet m p.2 = true) :
    ∃ m2, instantiateRouter p.1 r m = .ok m2 := by
  rcases hdisj with hsub | hempty
  · exact instantiateRouter_ok_of_met p.1 r m (depsMet_routes hsub hmet)
  · exact instantiateRouter_ok_of_met p.1 r m (by rw [hempty]; intro rt hrt; cases hrt)

theorem instantiateNode_met_not_refMissing (cfg : Config) (p : String × List String)
    (m : RMap) (e : StartErr) (hgood : GoodEntry cfg p) (hmet : depsMet m p.2 = true)
    (h : instantiateNode cfg p.1 m = .error e) : ∃ ge, e = .group ge := by
  unfold instantiateNode at h
  rcases hgood with ⟨g, hg, hds, hr⟩ | ⟨hg, r, hr, hdisj⟩
  · rcases bind_error_inv h with h1 | ⟨m1, hm1, h2⟩
    · rw [instantiateNodeGroup_some m hg] at h1
      refine instantiateGroup_met_error_group p.1 g m e ?_ h1
      rw [hds] at hmet
      exact depsMet_resolvers hmet
    · rw [instantiateNodeRouter_none m1 hr] at h2
      exact Except.noConfusion h2
  · rcases bind_error_inv h with h1 | ⟨m1, hm1, h2⟩
    · rw [instantiateNodeGroup_none m hg] at h1
      exact Except.noConfusion h1
    · rw [instantiateNodeGroup_none m hg] at hm1
      injection hm1 with h3
      subst h3
      rw [instantiateNodeRouter_some m hr] at h2
      obtain ⟨m2, hm2⟩ := instantiateRouter_good_ok p r m hdisj hmet
      rw [hm2] at h2
      exact Except.noConfusion h2

theorem instantiateNode_met_ok (cfg : Config) (p : String × List String) (m : RMap)
    (hgood : GoodEntry cfg p) (hmet : depsMet m p.2 = true)
    (hinst : ∀ id g m2, alookup cfg.groups id = some g → depsMet m2 (groupDeps g) = true →
      ∃ m', instantiateGroup id g m2 = .ok m') :
    ∃ m', instantiateNode cfg p.1 m = .ok m' := by
  cases hres : instantiateNode cfg p.1 m with
  | ok m' => exact ⟨m', rfl⟩
  | error e =>
    exfalso
    unfold instantiateNode at hres
    rcases hgood with ⟨g, hg, hds, hr⟩ | ⟨hg, r, hr, hdisj⟩
    · rcases bind_error_inv hres with h1 | ⟨m1, hm1, h2⟩
      · rw [instantiateNodeGroup_some m hg] at h1
        obtain ⟨m2, hm2⟩ := hinst p.1 g m hg (hds ▸ hmet)
        rw [hm2] at h1
        exact Except.noConfusion h1
      · rw [instantiateNodeRouter_none m1 hr] at h2
        exact Except.noConfusion h2
    · rcases bind_error_inv hres with h1 | ⟨m1, hm1, h2⟩
      · rw [instantiateNodeGroup_none m hg] at h1
        exact Except.noConfusion h1
      · rw [instantiateNodeGroup_none m hg] at hm1
        injection hm1 with h3
        subst h3
        rw [instantiateNodeRouter_some m hr] at h2
        obtain ⟨m2, hm2⟩ := instantiateRouter_good_ok p r m hdisj hmet
        rw [hm2] at h2
        exact Except.noConfusion h2

/-! ## Structural lemmas: the fixed-point loop -/

theorem pass_nil_inv (cfg : Config) (m m1 : RMap) (deps1 : List (String × List String))
    (found : Bool) (h : pass cfg [] m = .ok (m1, deps1, found)) :
    m1 = m ∧ deps1 = [] ∧ found = false := by
  simp only [pass] at h
  injection h with h'
  simp only [Prod.mk.injEq] at h'
  exact ⟨h'.1.symm, h'.2.1.symm, h'.2.2.symm⟩

theorem pass_ok_entries (cfg : Config) : ∀ (deps : List (String × List String)) (m m1 : RMap)
    (deps1 : List (String × List String)) (found : Bool),
    pass cfg deps m = .ok (m1, deps1, found) → ∀ p ∈ deps1, p ∈ deps := by
  intro deps
  induction deps with
  | nil =>
    intro m m1 deps1 found h p hp
    obtain ⟨-, rfl, -⟩ := pass_nil_inv cfg m m1 deps1 found h
    cases hp
  | cons q rest ih =>
    intro m m1 deps1 found h p hp
    obtain ⟨id, ds⟩ := q
    cases hmet : depsMet m ds <;> simp only [pass, hmet] at h
    · simp only [Bool.false_eq_true, if_false] at h
      obtain ⟨t, hT, h2⟩ := bind_ok_inv h
      obtain ⟨tm, trest, tf⟩ := t
      injection h2 with h3
      simp only [Prod.mk.injEq] at h3
      obtain ⟨rfl, rfl, rfl⟩ := h3
      rcases List.mem_cons.mp hp with hp | hp
      · exact hp ▸ List.mem_cons_self _ _
      · exact List.mem_cons_of_mem _ (ih m tm trest tf hT p hp)
    · simp only [if_true] at h
      obtain ⟨mI, hI, h2⟩ := bind_ok_inv h
      obtain ⟨t, hT, h3⟩ := bind_ok_inv h2
      obtain ⟨tm, trest, tf⟩ := t
      injection h3 with h4
      simp only [Prod.mk.injEq] at h4
      obtain ⟨rfl, rfl, rfl⟩ := h4
      exact List.mem_cons_of_mem _ (ih mI tm trest tf hT p hp)

theorem pass_ok_length (cfg : Config) : ∀ (deps : List (String × List String)) (m m1 : RMap)
    (deps1 : List (String × List String)) (found : Bool),
    pass cfg deps m = .ok (m1, deps1, found) →
    deps1.length ≤ deps.length ∧ (found = true → deps1.length < deps.length) := by
  intro deps
  induction deps with
  | nil =>
    intro m m1 deps1 found h
    obtain ⟨-, rfl, rfl⟩ := pass_nil_inv cfg m m1 deps1 found h
    simp
  | cons q rest ih =>
    intro m m1 deps1 found h
    obtain ⟨id, ds⟩ := q
    cases hmet : depsMet m ds <;> simp only [pass, hmet] at h
    · simp only [Bool.false_eq_true, if_false] at h
      obtain ⟨t, hT, h2⟩ := bind_ok_inv h
      obtain ⟨tm, trest, tf⟩ := t
      injection h2 with h3
      simp only [Prod.mk.injEq] at h3
      obtain ⟨rfl, rfl, rfl⟩ := h3
      obtain ⟨hle, hlt⟩ := ih m tm trest tf hT
      constructor
      · simpa using Nat.succ_le_succ hle
      · intro hf
        simpa using Nat.succ_lt_succ (hlt hf)
    · simp only [if_true] at h
      obtain ⟨mI, hI, h2⟩ := bind_ok_inv h
      obtain ⟨t, hT, h3⟩ := bind_ok_inv h2
      obtain ⟨tm, trest, tf⟩ := t
      injection h3 with h4
      simp only [Prod.mk.injEq] at h4
      obtain ⟨rfl, rfl, rfl⟩ := h4
      obtain ⟨hle, -⟩ := ih mI tm trest tf hT
      constructor
      · exact Nat.le_succ_of_le hle
      · intro _
        exact Nat.lt_succ_of_le hle

theorem pass_error_shape (cfg : Config) : ∀ (deps : List (String × List String)) (m : RMap)
    (e : StartErr), pass cfg deps m = .error e →
    ∃ id, (∃ rid, e = .groupRefMissing id rid) ∨ (∃ ge, e = .group ge)
      ∨ ∃ rid, e = .routerRefMissing id rid := by
  intro deps
  induction deps with
  | nil =>
    intro m e h
    exact Except.noConfusion h
  | cons q rest ih =>
    intro m e h
    obtain ⟨id, ds⟩ := q
    cases hmet : depsMet m ds <;> simp only [pass, hmet] at h
    · simp only [Bool.false_eq_true, if_false] at h
      rcases bind_error_inv h with h1 | ⟨t, hT, h2⟩
      · exact ih m e h1
      · obtain ⟨tm, trest, tf⟩ := t
        exact Except.noConfusion h2
    · simp only [if_true] at h
      rcases bind_error_inv h with h1 | ⟨mI, hI, h2⟩
      · exact ⟨id, instantiateNode_error_shape cfg id m e h1⟩
      · rcases bind_error_inv h2 with h3 | ⟨t, hT, h4⟩
        · exact ih mI e h3
        · obtain ⟨tm, trest, tf⟩ := t
          exact Except.noConfusion h4

theorem pass_good_error (cfg : Config) : ∀ (deps : List (String × List String)) (m : RMap)
    (e : StartErr), (∀ p ∈ deps, GoodEntry cfg p) → pass cfg deps m = .error e →
    ∃ ge, e = .group ge := by
  intro deps
  induction deps with
  | nil =>
    intro m e _ h
    exact Except.noConfusion h
  | cons q rest ih =>
    intro m e hgood h
    obtain ⟨id, ds⟩ := q
    cases hmet : depsMet m ds <;> simp only [pass, hmet] at h
    · simp only [Bool.false_eq_true, if_false] at h
      rcases bind_error_inv h with h1 | ⟨t, hT, h2⟩
      · exact ih m e (fun p hp => hgood p (List.mem_cons_of_mem _ hp)) h1
      · obtain ⟨tm, trest, tf⟩ := t
        exact Except.noConfusion h2
    · simp only [if_true] at h
      rcases bind_error_inv h with h1 | ⟨mI, hI, h2⟩
      · exact instantiateNode_met_not_refMissing cfg (id, ds) m e
          (hgood (id, ds) (List.mem_cons_self _ _)) hmet h1
      · rcases bind_error_inv h2 with h3 | ⟨t, hT, h4⟩
        · exact ih mI e (fun p hp => hgood p (List.mem_cons_of_mem _ hp)) h3
        · obtain ⟨tm, trest, tf⟩ := t
          exact Except.noConfusion h4

theorem pass_met_ok (cfg : Config) : ∀ (deps : List (String × List String)) (m : RMap),
    (∀ p ∈ deps, ∀ m2 : RMap, depsMet m2 p.2 = true →
      ∃ m', instantiateNode cfg p.1 m2 = .ok m') →
    ∃ out, pass cfg deps m = .ok out := by
  intro deps
  induction deps with
  | nil =>
    intro m _
    exact ⟨(m, [], false), rfl⟩
  | cons q rest ih =>
    intro m hok
    obtain ⟨id, ds⟩ := q
    cases hmet : depsMet m ds
    · obtain ⟨⟨tm, trest, tf⟩, hT⟩ := ih m fun p hp => hok p (List.mem_cons_of_mem _ hp)
      refine ⟨(tm, (id, ds) :: trest, tf), ?_⟩
      simp only [pass, hmet, Bool.false_eq_true, if_false]
      rw [hT]
      rfl
    · obtain ⟨mI, hI⟩ := hok (id, ds) (List.mem_cons_self _ _) m hmet
      obtain ⟨⟨tm, trest, tf⟩, hT⟩ := ih mI fun p hp => hok p (List.mem_cons_of_mem _ hp)
      refine ⟨(tm, trest, true), ?_⟩
      simp only [pass, hmet, if_true]
      rw [hI]
      show pass cfg rest mI >>= _ = _
      rw [hT]
      rfl

theorem pass_absent (cfg : Config) (A : List String) :
    ∀ (deps : List (String × List String)) (m m1 : RMap)
    (deps1 : List (String × List String)) (found : Bool),
    Absent A deps m → pass cfg deps m = .ok (m1, deps1, found) →
    Absent A deps1 m1 ∧ ∀ p ∈ deps, p.1 ∈ A → p ∈ deps1 := by
  intro deps
  induction deps with
  | nil =>
    intro m m1 deps1 found hA h
    obtain ⟨rfl, rfl, -⟩ := pass_nil_inv cfg m m1 deps1 found h
    exact ⟨hA, fun p hp => (by cases hp)⟩
  | cons q rest ih =>
    intro m m1 deps1 found hA h
    obtain ⟨id, ds⟩ := q
    cases hmet : depsMet m ds <;> simp only [pass, hmet] at h
    · simp only [Bool.false_eq_true, if_false] at h
      obtain ⟨t, hT, h2⟩ := bind_ok_inv h
      obtain ⟨tm, trest, tf⟩ := t
      injection h2 with h3
      simp only [Prod.mk.injEq] at h3
      obtain ⟨rfl, rfl, rfl⟩ := h3
      have hArest : Absent A rest m :=
        ⟨hA.1, fun a ha ds' hds' => hA.2 a ha ds' (List.mem_cons_of_mem _ hds')⟩
      obtain ⟨⟨habs1, habs2⟩, hkeep⟩ := ih m tm trest tf hArest hT
      refine ⟨⟨habs1, ?_⟩, ?_⟩
      · intro a ha ds' hds'
        rcases List.mem_cons.mp hds' with hds' | hds'
        · have hmem : (a, ds') ∈ (id, ds) :: rest := by
            rw [hds']
            exact List.mem_cons_self _ _
          exact hA.2 a ha ds' hmem
        · exact habs2 a ha ds' hds'
      · intro p hp hpA
        rcases List.mem_cons.mp hp with hp | hp
        · exact hp ▸ List.mem_cons_self _ _
        · exact List.mem_cons_of_mem _ (hkeep p hp hpA)
    · simp only [if_true] at h
      obtain ⟨mI, hI, h2⟩ := bind_ok_inv h
      obtain ⟨t, hT, h3⟩ := bind_ok_inv h2
      obtain ⟨tm, trest, tf⟩ := t
      injection h3 with h4
      simp only [Prod.mk.injEq] at h4
      obtain ⟨rfl, rfl, rfl⟩ := h4
      have hidA : id ∉ A := by
        intro hid
        obtain ⟨d, hd, hdA⟩ := hA.2 id hid ds (List.mem_cons_self _ _)
        have hnone := hA.1 d hdA
        have hsome := List.all_eq_true.mp hmet d hd
        rw [hnone] at hsome
        simp at hsome
      have hArest : Absent A rest mI := by
        refine ⟨?_, fun a ha ds' hds' => hA.2 a ha ds' (List.mem_cons_of_mem _ hds')⟩
        intro a ha
        rw [instantiateNode_ok_lookup cfg id m mI hI a (fun he => hidA (he ▸ ha))]
        exact hA.1 a ha
      obtain ⟨habs1, hkeep⟩ := ih mI tm trest tf hArest hT
      refine ⟨habs1, ?_⟩
      intro p hp hpA
      rcases List.mem_cons.mp hp with hp | hp
      · subst hp
        exact absurd hpA hidA
      · exact hkeep p hp hpA

theorem resolveLoop_zero (cfg : Config) (deps : List (String × List String)) (m : RMap) :
    resolveLoop cfg 0 deps m = if deps.isEmpty then .ok m else .error .fuelExhausted := rfl

theorem resolveLoop_succ_nil (cfg : Config) (fuel : Nat) (m : RMap) :
    resolveLoop cfg (fuel + 1) [] m = .ok m := rfl

theorem resolveLoop_succ_cons (cfg : Config) (fuel : Nat) (q : String × List String)
    (rest : List (String × List String)) (m : RMap) :
    resolveLoop cfg (fuel + 1) (q :: rest) m =
      (pass cfg (q :: rest) m >>= fun t =>
        match t with
        | (m1, deps1, found) =>
          if found then resolveLoop cfg fuel deps1 m1
          else .error .unableToResolveDependencies) := rfl

theorem resolveLoop_no_fuelExhausted (cfg : Config) : ∀ (fuel : Nat)
    (deps : List (String × List String)) (m : RMap), deps.length ≤ fuel →
    resolveLoop cfg fuel deps m ≠ .error .fuelExhausted := by
  intro fuel
  induction fuel with
  | zero =>
    intro deps m hle h
    have hnil : deps = [] := List.length_eq_zero.mp (Nat.le_zero.mp hle)
    subst hnil
    rw [resolveLoop_zero] at h
    simp at h
  | succ fuel ih =>
    intro deps m hle h
    cases deps with
    | nil =>
      rw [resolveLoop_succ_nil] at h
      exact Except.noConfusion h
    | cons q rest =>
      rw [resolveLoop_succ_cons] at h
      rcases bind_error_inv h with h1 | ⟨t, hT, h2⟩
      · obtain ⟨id, hs⟩ := pass_error_shape cfg (q :: rest) m _ h1
        rcases hs with ⟨rid, he⟩ | ⟨ge, he⟩ | ⟨rid, he⟩ <;> exact StartErr.noConfusion he
      · obtain ⟨tm, tdeps, tf⟩ := t
        cases tf
        · have h3 : (Except.error .unableToResolveDependencies : Except StartErr RMap) =
              .error .fuelExhausted := h2
          injection h3 with h4
          exact StartErr.noConfusion h4
        · have h3 : resolveLoop cfg fuel tdeps tm = .error .fuelExhausted := h2
          have hlt := (pass_ok_length cfg (q :: rest) m tm tdeps true hT).2 rfl
          exact ih tdeps tm (Nat.lt_succ_iff.mp (Nat.lt_of_lt_of_le hlt hle)) h3

theorem resolveLoop_good_error (cfg : Config) : ∀ (fuel : Nat)
    (deps : List (String × List String)) (m : RMap) (e : StartErr),
    (∀ p ∈ deps, GoodEntry cfg p) → resolveLoop cfg fuel deps m = .error e →
    e = .unableToResolveDependencies ∨ e = .fuelExhausted ∨ ∃ ge, e = .group ge := by
  intro fuel
  induction fuel with
  | zero =>
    intro deps m e _ h
    rw [resolveLoop_zero] at h
    cases hdep : deps.isEmpty <;> rw [hdep] at h <;> simp at h
    exact .inr (.inl h.symm)
  | succ fuel ih =>
    intro deps m e hgood h
    cases deps with
    | nil =>
      rw [resolveLoop_succ_nil] at h
      exact Except.noConfusion h
    | cons q rest =>
      rw [resolveLoop_succ_cons] at h
      rcases bind_error_inv h with h1 | ⟨t, hT, h2⟩
      · exact .inr (.inr (pass_good_error cfg (q :: rest) m e hgood h1))
      · obtain ⟨tm, tdeps, tf⟩ := t
        cases tf
        · have h3 : (Except.error .unableToResolveDependencies : Except StartErr RMap) =
              .error e := h2
          injection h3 with h4
          exact .inl h4.symm
        · have h3 : resolveLoop cfg fuel tdeps tm = .error e := h2
          refine ih tdeps tm e ?_ h3
          intro p hp
          exact hgood p (pass_ok_entries cfg (q :: rest) m tm tdeps true hT p hp)

theorem resolveLoop_stuck (cfg : Config) (A : List String) : ∀ (fuel : Nat)
    (deps : List (String × List String)) (m : RMap),
    deps.length ≤ fuel →
    Absent A deps m →
    (∃ p ∈ deps, p.1 ∈ A) →
    (∀ p ∈ deps, GoodEntry cfg p) →
    (∀ id g m2, alookup cfg.groups id = some g → depsMet m2 (groupDeps g) = true →
      ∃ m', instantiateGroup id g m2 = .ok m') →
    resolveLoop cfg fuel deps m = .error .unableToResolveDependencies := by
  intro fuel
  induction fuel with
  | zero =>
    intro deps m hle _ hex _ _
    obtain ⟨p, hp, -⟩ := hex
    have hnil : deps = [] := List.length_eq_zero.mp (Nat.le_zero.mp hle)
    subst hnil
    cases hp
  | succ fuel ih =>
    intro deps m hle hA hex hgood hinst
    cases hd : deps with
    | nil =>
      obtain ⟨p, hp, -⟩ := hex
      rw [hd] at hp
      cases hp
    | cons q rest =>
      subst hd
      rw [resolveLoop_succ_cons]
      obtain ⟨⟨tm, tdeps, tf⟩, hT⟩ := pass_met_ok cfg (q :: rest) m
        (fun p hp m2 hm2 => instantiateNode_met_ok cfg p m2 (hgood p hp) hm2 hinst)
      rw [hT]
      show (if tf then resolveLoop cfg fuel tdeps tm
        else .error .unableToResolveDependencies) = _
      cases tf
      · rfl
      · obtain ⟨hAbs, hkeep⟩ := pass_absent cfg A (q :: rest) m tm tdeps true hA hT
        obtain ⟨p, hp, hpA⟩ := hex
        have hlt := (pass_ok_length cfg (q :: rest) m tm tdeps true hT).2 rfl
        simp only [if_true]
        exact ih tdeps tm (Nat.lt_succ_iff.mp (Nat.lt_of_lt_of_le hlt hle)) hAbs
          ⟨p, hkeep p hp hpA, hpA⟩
          (fun p2 hp2 => hgood p2 (pass_ok_entries cfg (q :: rest) m tm tdeps true hT p2 hp2))
          hinst

/-! ## Structural lemmas: building the dependency map and the leaf map -/

theorem alookup_single {α : Type} (k x : String) (v : α) :
    alookup [(k, v)] x = if k = x then some v else none := rfl

theorem addGroupDeps_isSome : ∀ (gs : List (String × Group))
    (acc deps : List (String × List String)), addGroupDeps gs acc = .ok deps →
    ∀ id, (alookup deps id).isSome ↔ ((alookup acc id).isSome ∨ (alookup gs id).isSome) := by
  intro gs
  induction gs with
  | nil =>
    intro acc deps h id
    injection h with h'
    subst h'
    simp [alookup]
  | cons q rest ih =>
    intro acc deps h id
    obtain ⟨id', g'⟩ := q
    cases hchk : (alookup acc id').isSome <;> simp only [addGroupDeps, hchk] at h
    case false =>
      simp only [Bool.false_eq_true, if_false] at h
      rw [ih _ _ h id]
      by_cases hx : id' = id
      · subst hx
        have hnone : alookup acc id' = none := by
          cases ha : alookup acc id'
          · rfl
          · rw [ha] at hchk
            simp at hchk
        rw [alookup_append_none _ hnone, alookup_single]
        simp [alookup]
      · have happ : alookup (acc ++ [(id', groupDeps g')]) id = alookup acc id := by
          cases ha : alookup acc id with
          | some v => exact alookup_append_some _ ha
          | none =>
            rw [alookup_append_none _ ha, alookup_single]
            simp [hx]
        rw [happ]
        simp [alookup, hx]
    case true =>
      simp only [if_true] at h
      exact Except.noConfusion h

theorem addGroupDeps_entries : ∀ (gs : List (String × Group))
    (acc deps : List (String × List String)), addGroupDeps gs acc = .ok deps →
    ∀ p ∈ deps, p ∈ acc ∨ (alookup acc p.1 = none ∧
      ∃ g, alookup gs p.1 = some g ∧ p.2 = groupDeps g) := by
  intro gs
  induction gs with
  | nil =>
    intro acc deps h p hp
    injection h with h'
    subst h'
    exact .inl hp
  | cons q rest ih =>
    intro acc deps h p hp
    obtain ⟨id', g'⟩ := q
    cases hchk : (alookup acc id').isSome <;> simp only [addGroupDeps, hchk] at h
    case true =>
      simp only [if_true] at h
      exact Except.noConfusion h
    case false =>
      simp only [Bool.false_eq_true, if_false] at h
      have hnone : alookup acc id' = none := by
        cases ha : alookup acc id'
        · rfl
        · rw [ha] at hchk
          simp at hchk
      rcases ih _ _ h p hp with hin | ⟨hpn, g, hg, hds⟩
      · rcases List.mem_append.mp hin with hin | hin
        · exact .inl hin
        · rcases List.mem_singleton.mp hin with rfl
          refine .inr ⟨hnone, g', ?_, rfl⟩
          simp [alookup]
      · have hne : ¬id' = p.1 := by
          intro he
          rw [← he] at hpn
          rw [alookup_append_none _ hnone, alookup_single, if_pos rfl] at hpn
          exact Option.noConfusion hpn
        have hacc : alookup acc p.1 = none := by
          cases ha : alookup acc p.1 with
          | none => rfl
          | some v =>
            rw [alookup_append_some _ ha] at hpn
            exact Option.noConfusion hpn
        exact .inr ⟨hacc, g, by simpa [alookup, hne] using hg, hds⟩

theorem addGroupDeps_val : ∀ (gs : List (String × Group))
    (acc deps : List (String × List String)), addGroupDeps gs acc = .ok deps →
    ∀ id, (alookup acc id).isSome → alookup deps id = alookup acc id := by
  intro gs
  induction gs with
  | nil =>
    intro acc deps h id _
    injection h with h'
    subst h'
    rfl
  | cons q rest ih =>
    intro acc deps h id hid
    obtain ⟨id', g'⟩ := q
    cases hchk : (alookup acc id').isSome <;> simp only [addGroupDeps, hchk] at h
    case true =>
      simp only [if_true] at h
      exact Except.noConfusion h
    case false =>
      simp only [Bool.false_eq_true, if_false] at h
      obtain ⟨v, hv⟩ := Option.isSome_iff_exists.mp hid
      have happ : alookup (acc ++ [(id', groupDeps g')]) id = some v := alookup_append_some _ hv
      rw [ih _ _ h id (by simp [happ]), happ, hv]

theorem addGroupDeps_group_val : ∀ (gs : List (String × Group))
    (acc deps : List (String × List String)), addGroupDeps gs acc = .ok deps →
    ∀ id g, alookup acc id = none → alookup gs id = some g →
    alookup deps id = some (groupDeps g) := by
  intro gs
  induction gs with
  | nil =>
    intro acc deps h id g _ hg
    exact Option.noConfusion hg
  | cons q rest ih =>
    intro acc deps h id g hacc hg
    obtain ⟨id', g'⟩ := q
    cases hchk : (alookup acc id').isSome <;> simp only [addGroupDeps, hchk] at h
    case true =>
      simp only [if_true] at h
      exact Except.noConfusion h
    case false =>
      simp only [Bool.false_eq_true, if_false] at h
      by_cases hx : id' = id
      · subst hx
        simp only [alookup, if_pos rfl] at hg
        injection hg with hg'
        have happ : alookup (acc ++ [(id', groupDeps g')]) id' = some (groupDeps g') := by
          rw [alookup_append_none _ hacc, alookup_single, if_pos rfl]
        rw [addGroupDeps_val rest _ _ h id' (by simp [happ]), happ, hg']
      · simp only [alookup, if_neg hx] at hg
        refine ih _ _ h id g ?_ hg
        cases ha : alookup acc id with
        | none =>
          rw [alookup_append_none _ ha, alookup_single, if_neg hx]
        | some v =>
          rw [ha] at hacc
          exact Option.noConfusion hacc

theorem addGroupDeps_error_shape : ∀ (gs : List (String × Group))
    (acc : List (String × List String)) (e : StartErr), addGroupDeps gs acc = .error e →
    ∃ id, e = .duplicateName id := by
  intro gs
  induction gs with
  | nil =>
    intro acc e h
    exact Except.noConfusion h
  | cons q rest ih =>
    intro acc e h
    obtain ⟨id', g'⟩ := q
    cases hchk : (alookup acc id').isSome <;> simp only [addGroupDeps, hchk] at h
    case true =>
      simp only [if_true] at h
      injection h with h'
      exact ⟨id', h'.symm⟩
    case false =>
      simp only [Bool.false_eq_true, if_false] at h
      exact ih _ _ h

theorem addGroupDeps_ok : ∀ (gs : List (String × Group))
    (acc : List (String × List String)), (keys gs).Nodup →
    (∀ x ∈ keys gs, alookup acc x = none) →
    ∃ deps, addGroupDeps gs acc = .ok deps := by
  intro gs
  induction gs with
  | nil =>
    intro acc _ _
    exact ⟨acc, rfl⟩
  | cons q rest ih =>
    intro acc hnd hfresh
    obtain ⟨id', g'⟩ := q
    have hacc : alookup acc id' = none := hfresh id' (by simp [keys_cons])
    have hchk : (alookup acc id').isSome = false := by simp [hacc]
    rw [keys_cons] at hnd
    obtain ⟨deps, hdeps⟩ := ih (acc ++ [(id', groupDeps g')])
      (List.nodup_cons.mp hnd).2
      (by
        intro x hx
        have hxne : ¬id' = x := fun he => (List.nodup_cons.mp hnd).1 (he ▸ hx)
        rw [alookup_append_none _ (hfresh x (by simp [keys_cons, hx])), alookup_single,
          if_neg hxne])
    exact ⟨deps, by simp only [addGroupDeps, hchk, Bool.false_eq_true, if_false]; exact hdeps⟩

theorem addRouterDeps_none : ∀ (rs : List (String × Router))
    (acc deps : List (String × List String)), addRouterDeps rs acc = .ok deps →
    ∀ id, (alookup acc id).isSome → alookup rs id = none := by
  intro rs
  induction rs with
  | nil =>
    intro acc deps _ id _
    rfl
  | cons q rest ih =>
    intro acc deps h id hid
    obtain ⟨id', r'⟩ := q
    cases hchk : (alookup acc id').isSome <;> simp only [addRouterDeps, hchk] at h
    case true =>
      simp only [if_true] at h
      exact Except.noConfusion h
    case false =>
      simp only [Bool.false_eq_true, if_false] at h
      have hne : ¬id' = id := by
        intro he
        rw [he] at hchk
        rw [hid] at hchk
        exact Bool.noConfusion hchk
      rw [alookup, if_neg hne]
      cases hemp : r'.routes.isEmpty <;> rw [hemp] at h
      · simp only [Bool.false_eq_true, if_false] at h
        refine ih _ _ h id ?_
        obtain ⟨v, hv⟩ := Option.isSome_iff_exists.mp hid
        simp [alookup_append_some _ hv]
      · simp only [if_true] at h
        exact ih _ _ h id hid

theorem addRouterDeps_entries : ∀ (rs : List (String × Router))
    (acc deps : List (String × List String)), addRouterDeps rs acc = .ok deps →
    ∀ p ∈ deps, p ∈ acc ∨ (alookup acc p.1 = none ∧
      ∃ r, alookup rs p.1 = some r ∧ (p.2 = routerDeps r ∨ r.routes = [])) := by
  intro rs
  induction rs with
  | nil =>
    intro acc deps h p hp
    injection h with h'
    subst h'
    exact .inl hp
  | cons q rest ih =>
    intro acc deps h p hp
    obtain ⟨id', r'⟩ := q
    cases hchk : (alookup acc id').isSome <;> simp only [addRouterDeps, hchk] at h
    case true =>
      simp only [if_true] at h
      exact Except.noConfusion h
    case false =>
      simp only [Bool.false_eq_true, if_false] at h
      have hnone : alookup acc id' = none := by
        cases ha : alookup acc id'
        · rfl
        · rw [ha] at hchk
          simp at hchk
      cases hemp : r'.routes.isEmpty <;> rw [hemp] at h
      · simp only [Bool.false_eq_true, if_false] at h
        rcases ih _ _ h p hp with hin | ⟨hpn, r, hr, hd⟩
        · rcases List.mem_append.mp hin with hin | hin
          · exact .inl hin
          · rcases List.mem_singleton.mp hin with rfl
            refine .inr ⟨hnone, r', ?_, .inl rfl⟩
            simp [alookup]
        · have hne : ¬id' = p.1 := by
            intro he
            rw [← he] at hpn
            rw [alookup_append_none _ hnone, alookup_single, if_pos rfl] at hpn
            exact Option.noConfusion hpn
          have hacc : alookup acc p.1 = none := by
            cases ha : alookup acc p.1 with
            | none => rfl
            | some v =>
              rw [alookup_append_some _ ha] at hpn
              exact Option.noConfusion hpn
          exact .inr ⟨hacc, r, by simpa [alookup, hne] using hr, hd⟩
      · simp only [if_true] at h
        rcases ih _ _ h p hp with hin | ⟨hpn, r, hr, hd⟩
        · exact .inl hin
        · by_cases hx : id' = p.1
          · refine .inr ⟨hpn, r', ?_, .inr (List.isEmpty_iff.mp hemp)⟩
            rw [alookup, if_pos hx]
          · exact .inr ⟨hpn, r, by simpa [alookup, hx] using hr, hd⟩

theorem addRouterDeps_val : ∀ (rs : List (String × Router))
    (acc deps : List (String × List String)), addRouterDeps rs acc = .ok deps →
    ∀ id, (alookup acc id).isSome → alookup deps id = alookup acc id := by
  intro rs
  induction rs with
  | nil =>
    intro acc deps h id _
    injection h with h'
    subst h'
    rfl
  | cons q rest ih =>
    intro acc deps h id hid
    obtain ⟨id', r'⟩ := q
    cases hchk : (alookup acc id').isSome <;> simp only [addRouterDeps, hchk] at h
    case true =>
      simp only [if_true] at h
      exact Except.noConfusion h
    case false =>
      simp only [Bool.false_eq_true, if_false] at h
      obtain ⟨v, hv⟩ := Option.isSome_iff_exists.mp hid
      cases hemp : r'.routes.isEmpty <;> rw [hemp] at h
      · simp only [Bool.false_eq_true, if_false] at h
        have happ : alookup (acc ++ [(id', routerDeps r')]) id = some v :=
          alookup_append_some _ hv
        rw [ih _ _ h id (by simp [happ]), happ, hv]
      · simp only [if_true] at h
        exact ih _ _ h id hid

theorem addRouterDeps_router_val : ∀ (rs : List (String × Router))
    (acc deps : List (String × List String)), addRouterDeps rs acc = .ok deps →
    ∀ id r, alookup acc id = none → alookup rs id = some r → r.routes.isEmpty = false →
    alookup deps id = some (routerDeps r) := by
  intro rs
  induction rs with
  | nil =>
    intro acc deps h id r _ hr _
    exact Option.noConfusion hr
  | cons q rest ih =>
    intro acc deps h id r hacc hr hemp
    obtain ⟨id', r'⟩ := q
    cases hchk : (alookup acc id').isSome <;> simp only [addRouterDeps, hchk] at h
    case true =>
      simp only [if_true] at h
      exact Except.noConfusion h
    case false =>
      simp only [Bool.false_eq_true, if_false] at h
      by_cases hx : id' = id
      · subst hx
        simp only [alookup, if_pos rfl] at hr
        injection hr with hr'
        rw [← hr'] at hemp
        rw [hemp] at h
        simp only [Bool.false_eq_true, if_false] at h
        have happ : alookup (acc ++ [(id', routerDeps r')]) id' = some (routerDeps r') := by
          rw [alookup_append_none _ hacc, alookup_single, if_pos rfl]
        rw [addRouterDeps_val rest _ _ h id' (by simp [happ]), happ, hr']
      · simp only [alookup, if_neg hx] at hr
        cases hemp' : r'.routes.isEmpty <;> rw [hemp'] at h
        · simp only [Bool.false_eq_true, if_false] at h
          refine ih _ _ h id r ?_ hr hemp
          rw [alookup_append_none _ hacc, alookup_single, if_neg hx]
        · simp only [if_true] at h
          exact ih _ _ h id r hacc hr hemp

theorem addRouterDeps_error_shape : ∀ (rs : List (String × Router))
    (acc : List (String × List String)) (e : StartErr), addRouterDeps rs acc = .error e →
    ∃ id, e = .duplicateName id := by
  intro rs
  induction rs with
  | nil =>
    intro acc e h
    exact Except.noConfusion h
  | cons q rest ih =>
    intro acc e h
    obtain ⟨id', r'⟩ := q
    cases hchk : (alookup acc id').isSome <;> simp only [addRouterDeps, hchk] at h
    case true =>
      simp only [if_true] at h
      injection h with h'
      exact ⟨id', h'.symm⟩
    case false =>
      simp only [Bool.false_eq_true, if_false] at h
      cases hemp : r'.routes.isEmpty <;> rw [hemp] at h
      · simp only [Bool.false_eq_true, if_false] at h
        exact ih _ _ h
      · simp only [if_true] at h
        exact ih _ _ h

theorem addRouterDeps_ok : ∀ (rs : List (String × Router))
    (acc : List (String × List String)), (keys rs).Nodup →
    (∀ x ∈ keys rs, alookup acc x = none) →
    ∃ deps, addRouterDeps rs acc = .ok deps := by
  intro rs
  induction rs with
  | nil =>
    intro acc _ _
    exact ⟨acc, rfl⟩
  | cons q rest ih =>
    intro acc hnd hfresh
    obtain ⟨id', r'⟩ := q
    have hacc : alookup acc id' = none := hfresh id' (by simp [keys_cons])
    have hchk : (alookup acc id').isSome = false := by simp [hacc]
    rw [keys_cons] at hnd
    cases hemp : r'.routes.isEmpty
    · obtain ⟨deps, hdeps⟩ := ih (acc ++ [(id', routerDeps r')])
        (List.nodup_cons.mp hnd).2
        (by
          intro x hx
          have hxne : ¬id' = x := fun he => (List.nodup_cons.mp hnd).1 (he ▸ hx)
          rw [alookup_append_none _ (hfresh x (by simp [keys_cons, hx])), alookup_single,
            if_neg hxne])
      refine ⟨deps, ?_⟩
      simp only [addRouterDeps, hchk, Bool.false_eq_true, if_false, hemp]
      exact hdeps
    · obtain ⟨deps, hdeps⟩ := ih acc (List.nodup_cons.mp hnd).2
        (fun x hx => hfresh x (by simp [keys_cons, hx]))
      refine ⟨deps, ?_⟩
      simp only [addRouterDeps, hchk, Bool.false_eq_true, if_false, hemp, if_true]
      exact hdeps

theorem buildDeps_good (cfg : Config) (deps : List (String × List String))
    (h : buildDeps cfg = .ok deps) : ∀ p ∈ deps, GoodEntry cfg p := by
  unfold buildDeps at h
  obtain ⟨d1, hd1, h2⟩ := bind_ok_inv h
  intro p hp
  rcases addRouterDeps_entries _ _ _ h2 p hp with hin | ⟨hpn, r, hr, hd⟩
  · rcases addGroupDeps_entries _ _ _ hd1 p hin with hin0 | ⟨-, g, hg, hds⟩
    · cases hin0
    · have hrs : alookup cfg.routers p.1 = none := by
        refine addRouterDeps_none _ _ _ h2 p.1 ?_
        exact (alookup_isSome_iff d1 p.1).mpr (mem_keys_of_mem hin)
      exact .inl ⟨g, hg, hds, hrs⟩
  · have hgs : alookup cfg.groups p.1 = none := by
      cases hgv : alookup cfg.groups p.1 with
      | none => rfl
      | some g =>
        have hsome : (alookup d1 p.1).isSome := by
          rw [addGroupDeps_isSome _ _ _ hd1 p.1]
          exact .inr (by simp [hgv])
        rw [hpn] at hsome
        simp at hsome
    refine .inr ⟨hgs, r, hr, ?_⟩
    rcases hd with hd | hd
    · refine .inl ?_
      rw [hd]
      exact List.Subset.refl _
    · exact .inr hd

theorem buildDeps_error_shape (cfg : Config) (e : StartErr) (h : buildDeps cfg = .error e) :
    ∃ id, e = .duplicateName id := by
  unfold buildDeps at h
  rcases bind_error_inv h with h1 | ⟨d1, hd1, h2⟩
  · exact addGroupDeps_error_shape _ _ _ h1
  · exact addRouterDeps_error_shape _ _ _ h2

theorem buildDeps_ok (cfg : Config) (hnd : (nodeIds cfg).Nodup) :
    ∃ deps, buildDeps cfg = .ok deps := by
  unfold nodeIds at hnd
  rw [List.nodup_append] at hnd
  obtain ⟨hng, hnr, hdisj⟩ := hnd
  obtain ⟨d1, hd1⟩ := addGroupDeps_ok cfg.groups [] hng (fun x _ => rfl)
  have hfresh : ∀ x ∈ keys cfg.routers, alookup d1 x = none := by
    intro x hx
    have hgs : alookup cfg.groups x = none := by
      rw [alookup_eq_none_iff]
      exact fun hmem => hdisj hmem hx
    cases hv : alookup d1 x with
    | none => rfl
    | some v =>
      have hsome : (alookup d1 x).isSome := by simp [hv]
      rw [addGroupDeps_isSome _ _ _ hd1 x] at hsome
      rcases hsome with hsome | hsome
      · simp [alookup] at hsome
      · rw [hgs] at hsome
        simp at hsome
  obtain ⟨deps, hd2⟩ := addRouterDeps_ok cfg.routers d1 hnr hfresh
  refine ⟨deps, ?_⟩
  unfold buildDeps
  rw [hd1]
  exact hd2

theorem buildDeps_keys (cfg : Config) (deps : List (String × List String))
    (h : buildDeps cfg = .ok deps) : ∀ p ∈ deps, p.1 ∈ nodeIds cfg := by
  intro p hp
  rcases buildDeps_good cfg deps h p hp with ⟨g, hg, -, -⟩ | ⟨-, r, hr, -⟩
  · exact List.mem_append_left _ ((alookup_isSome_iff _ _).mp (by simp [hg]))
  · exact List.mem_append_right _ ((alookup_isSome_iff _ _).mp (by simp [hr]))

theorem buildDeps_group_entry (cfg : Config) (deps : List (String × List String))
    (h : buildDeps cfg = .ok deps) (id : String) (g : Group)
    (hg : alookup cfg.groups id = some g) : alookup deps id = some (groupDeps g) := by
  unfold buildDeps at h
  obtain ⟨d1, hd1, h2⟩ := bind_ok_inv h
  have hv1 : alookup d1 id = some (groupDeps g) :=
    addGroupDeps_group_val cfg.groups [] d1 hd1 id g rfl hg
  rw [addRouterDeps_val _ _ _ h2 id (by simp [hv1]), hv1]

theorem buildDeps_router_entry (cfg : Config) (deps : List (String × List String))
    (h : buildDeps cfg = .ok deps) (hnd : (nodeIds cfg).Nodup) (id : String) (r : Router)
    (hr : alookup cfg.routers id = some r) (hemp : r.routes.isEmpty = false) :
    alookup deps id = some (routerDeps r) := by
  unfold buildDeps at h
  obtain ⟨d1, hd1, h2⟩ := bind_ok_inv h
  unfold nodeIds at hnd
  rw [List.nodup_append] at hnd
  have hgs : alookup cfg.groups id = none := by
    rw [alookup_eq_none_iff]
    intro hmem
    exact hnd.2.2 hmem ((alookup_isSome_iff _ _).mp (by simp [hr]))
  have hd1n : alookup d1 id = none := by
    cases hv : alookup d1 id with
    | none => rfl
    | some v =>
      have hsome : (alookup d1 id).isSome := by simp [hv]
      rw [addGroupDeps_isSome _ _ _ hd1 id] at hsome
      rcases hsome with hsome | hsome
      · simp [alookup] at hsome
      · rw [hgs] at hsome
        simp at hsome
  exact addRouterDeps_router_val _ _ _ h2 id r hd1n hr hemp

theorem buildResolvers_isSome : ∀ (rs : List (String × ResolverCfg)) (acc m : RMap),
    buildResolvers rs acc = .ok m →
    ∀ x, (alookup m x).isSome ↔ ((alookup acc x).isSome ∨ (alookup rs x).isSome) := by
  intro rs
  induction rs with
  | nil =>
    intro acc m h x
    injection h with h'
    subst h'
    simp [alookup]
  | cons q rest ih =>
    intro acc m h x
    obtain ⟨id, r⟩ := q
    cases hchk : (alookup acc id).isSome <;> simp only [buildResolvers, hchk] at h
    case true =>
      simp only [if_true] at h
      exact Except.noConfusion h
    case false =>
      simp only [Bool.false_eq_true, if_false] at h
      rw [ih _ _ h x, alookup_upsert]
      by_cases hx : id = x
      · subst hx
        simp [alookup]
      · simp [alookup, hx]

theorem buildResolvers_error_shape : ∀ (rs : List (String × ResolverCfg)) (acc : RMap)
    (e : StartErr), buildResolvers rs acc = .error e → ∃ id, e = .duplicateResolverId id := by
  intro rs
  induction rs with
  | nil =>
    intro acc e h
    exact Except.noConfusion h
  | cons q rest ih =>
    intro acc e h
    obtain ⟨id, r⟩ := q
    cases hchk : (alookup acc id).isSome <;> simp only [buildResolvers, hchk] at h
    case true =>
      simp only [if_true] at h
      injection h with h'
      exact ⟨id, h'.symm⟩
    case false =>
      simp only [Bool.false_eq_true, if_false] at h
      exact ih _ _ h

theorem buildResolvers_ok : ∀ (rs : List (String × ResolverCfg)) (acc : RMap),
    (keys rs).Nodup → (∀ x ∈ keys rs, alookup acc x = none) →
    ∃ m, buildResolvers rs acc = .ok m := by
  intro rs
  induction rs with
  | nil =>
    intro acc _ _
    exact ⟨acc, rfl⟩
  | cons q rest ih =>
    intro acc hnd hfresh
    obtain ⟨id, r⟩ := q
    have hacc : alookup acc id = none := hfresh id (by simp [keys_cons])
    have hchk : (alookup acc id).isSome = false := by simp [hacc]
    rw [keys_cons] at hnd
    obtain ⟨m, hm⟩ := ih (upsert acc id (resolverFromConfig id r))
      (List.nodup_cons.mp hnd).2
      (by
        intro x hx
        have hxne : ¬id = x := fun he => (List.nodup_cons.mp hnd).1 (he ▸ hx)
        rw [alookup_upsert, if_neg hxne]
        exact hfresh x (by simp [keys_cons, hx]))
    exact ⟨m, by simp only [buildResolvers, hchk, Bool.false_eq_true, if_false]; exact hm⟩

theorem buildListenerProto_error_shape (id : String) (l : Listener) (res : Option RResolver)
    (e : StartErr) (h : buildListenerProto id l res = .error e) :
    e = .unsupportedProtocol l.protocol id := by
  unfold buildListenerProto at h
  repeat' split at h
  all_goals first
    | exact Except.noConfusion h
    | (injection h with h'; exact h'.symm)

theorem buildListenerStep_error_shape (m : RMap) (id : String) (l : Listener) (e : StartErr)
    (h : buildListenerStep m id l = .error e) :
    e = .listenerRefMissing id l.resolver ∨ e = .unsupportedProtocol l.protocol id := by
  unfold buildListenerStep at h
  split at h
  · injection h with h'
    exact .inl h'.symm
  · exact .inr (buildListenerProto_error_shape id l _ e h)

theorem buildListeners_error_shape (m : RMap) : ∀ (ls : List (String × Listener))
    (e : StartErr), buildListeners m ls = .error e →
    (∃ id rid, e = .listenerRefMissing id rid)
      ∨ ∃ pr id, e = .unsupportedProtocol pr id := by
  intro ls
  induction ls with
  | nil =>
    intro e h
    exact Except.noConfusion h
  | cons q rest ih =>
    intro e h
    obtain ⟨id, l⟩ := q
    simp only [buildListeners] at h
    rcases bind_error_inv h with h1 | ⟨bl, hbl, h2⟩
    · rcases buildListenerStep_error_shape m id l e h1 with h' | h'
      · exact .inl ⟨id, l.resolver, h'⟩
      · exact .inr ⟨l.protocol, id, h'⟩
    · rcases bind_error_inv h2 with h3 | ⟨bls, hbls, h4⟩
      · exact ih e h3
      · exact Except.noConfusion h4

/-! ## Inversion of `assemble` and `start` -/

theorem assemble_inv_ok (opt : options) (cfg : Config) (a : Assembled)
    (h : assemble opt cfg = .ok a) :
    ∃ m0 deps m ls, buildResolvers cfg.resolvers [] = .ok m0 ∧ buildDeps cfg = .ok deps ∧
      resolveLoop cfg deps.length deps m0 = .ok m ∧ buildListeners m cfg.listeners = .ok ls ∧
      a = { logLevel := opt.logLevel, resolvers := m, listeners := ls } := by
  unfold assemble at h
  obtain ⟨m0, h0, h⟩ := bind_ok_inv h
  obtain ⟨deps, h1, h⟩ := bind_ok_inv h
  obtain ⟨m, h2, h⟩ := bind_ok_inv h
  obtain ⟨ls, h3, h⟩ := bind_ok_inv h
  injection h with h'
  exact ⟨m0, deps, m, ls, h0, h1, h2, h3, h'.symm⟩

theorem assemble_inv_error (opt : options) (cfg : Config) (e : StartErr)
    (h : assemble opt cfg = .error e) :
    buildResolvers cfg.resolvers [] = .error e ∨
    ∃ m0, buildResolvers cfg.resolvers [] = .ok m0 ∧
      (buildDeps cfg = .error e ∨
       ∃ deps, buildDeps cfg = .ok deps ∧
        (resolveLoop cfg deps.length deps m0 = .error e ∨
         ∃ m, resolveLoop cfg deps.length deps m0 = .ok m ∧
           buildListeners m cfg.listeners = .error e)) := by
  unfold assemble at h
  rcases bind_error_inv h with h1 | ⟨m0, h0, h⟩
  · exact .inl h1
  rcases bind_error_inv h with h1 | ⟨deps, hd, h⟩
  · exact .inr ⟨m0, h0, .inl h1⟩
  rcases bind_error_inv h with h1 | ⟨m, hm, h⟩
  · exact .inr ⟨m0, h0, .inr ⟨deps, hd, .inl h1⟩⟩
  rcases bind_error_inv h with h1 | ⟨ls, hl, h⟩
  · exact .inr ⟨m0, h0, .inr ⟨deps, hd, .inr ⟨m, hm, h1⟩⟩⟩
  · exact Except.noConfusion h

theorem start_eq_assemble (opt : options) (cfg : Config) (h : opt.logLevel ≤ 6) :
    start opt cfg = assemble opt cfg := by
  simp [start, Nat.not_lt.mpr h]

theorem start_error_classes (opt : options) (cfg : Config) (e : StartErr)
    (h : start opt cfg = .error e) :
    (∃ n, e = .invalidLogLevel n) ∨ (∃ i, e = .duplicateResolverId i)
    ∨ (∃ i, e = .duplicateName i) ∨ e = .unableToResolveDependencies
    ∨ e = .fuelExhausted ∨ (∃ ge, e = .group ge)
    ∨ (∃ i ri, e = .listenerRefMissing i ri)
    ∨ ∃ pr i, e = .unsupportedProtocol pr i := by
  unfold start at h
  split at h
  · injection h with h'
    exact .inl ⟨opt.logLevel, h'.symm⟩
  · rcases assemble_inv_error opt cfg e h with h1 | ⟨m0, h0, h1 | ⟨deps, hd, h1 |
      ⟨m, hm, h1⟩⟩⟩
    · obtain ⟨i, rfl⟩ := buildResolvers_error_shape _ _ _ h1
      exact .inr (.inl ⟨i, rfl⟩)
    · obtain ⟨i, rfl⟩ := buildDeps_error_shape _ _ h1
      exact .inr (.inr (.inl ⟨i, rfl⟩))
    · rcases resolveLoop_good_error cfg deps.length deps m0 e
        (buildDeps_good cfg deps hd) h1 with h' | h' | h'
      · exact .inr (.inr (.inr (.inl h')))
      · exact .inr (.inr (.inr (.inr (.inl h'))))
      · exact .inr (.inr (.inr (.inr (.inr (.inl h')))))
    · rcases buildListeners_error_shape m _ e h1 with ⟨i, ri, h'⟩ | ⟨pr, i, h'⟩
      · exact .inr (.inr (.inr (.inr (.inr (.inr (.inl ⟨i, ri, h'⟩))))))
      · exact .inr (.inr (.inr (.inr (.inr (.inr (.inr ⟨pr, i, h'⟩))))))

/-! ## Claim C2 -/

/-- C2: whenever the fixed-point loop of `start` instantiates a group or
router node, every id the node references is already present in the
resolver map; consequently the "references non-existant resolver" error
branches inside `instantiateGroup` (main.go:260-263) and
`instantiateRouter` (main.go:577-580) are unreachable from `start`: no run
of `start`, on any configuration, returns either error. -/
theorem claim2_ref_missing_unreachable (opt : options) (cfg : Config) :
    isRefMissingResult (start opt cfg) = false := by
  cases hs : start opt cfg with
  | ok a => rfl
  | error e =>
    rcases start_error_classes opt cfg e hs with ⟨n, rfl⟩ | ⟨i, rfl⟩ | ⟨i, rfl⟩ | rfl | rfl |
      ⟨ge, rfl⟩ | ⟨i, ri, rfl⟩ | ⟨pr, i, rfl⟩ <;> rfl

/-! ## Claim C6 -/

theorem start_no_fuelExhausted (opt : options) (cfg : Config) :
    start opt cfg ≠ .error .fuelExhausted := by
  intro h
  unfold start at h
  split at h
  · injection h with h'
    exact StartErr.noConfusion h'
  · rcases assemble_inv_error opt cfg _ h with h1 | ⟨m0, h0, h1 | ⟨deps, hd, h1 |
      ⟨m, hm, h1⟩⟩⟩
    · obtain ⟨i, he⟩ := buildResolvers_error_shape _ _ _ h1
      exact StartErr.noConfusion he
    · obtain ⟨i, he⟩ := buildDeps_error_shape _ _ h1
      exact StartErr.noConfusion he
    · exact resolveLoop_no_fuelExhausted cfg deps.length deps m0 (Nat.le_refl _) h1
    · rcases buildListeners_error_shape m _ _ h1 with ⟨i, ri, he⟩ | ⟨pr, i, he⟩ <;>
        exact StartErr.noConfusion he

/-- C6: the fixed-point loop terminates on every input: each pass either
removes at least one dependency entry (`pass_ok_length`) or the loop
returns an error, so the loop performs at most as many passes as there are
dependency entries — at most the number of group and router definitions.
The loop is modelled with fuel equal to the entry count and the
fuel-exhaustion marker is unreachable for every configuration and option. -/
theorem claim6_loop_terminates (opt : options) (cfg : Config) :
    isFuelExhaustedResult (start opt cfg) = false := by
  cases hs : start opt cfg with
  | ok a => rfl
  | error e =>
    cases e <;> try rfl
    exact absurd hs (start_no_fuelExhausted opt cfg)

/-! ## Claim C10 -/

/-- C10: a log level above 6 is rejected with an "invalid log level" error
before the configuration is consulted (the result does not depend on
`cfg`); a level from 0 to 6 passes the check, startup proceeds into the
assembly, and the applied level is recorded on success. -/
theorem claim10_log_level_check (opt : options) (cfg : Config) :
    (6 < opt.logLevel → start opt cfg = .error (.invalidLogLevel opt.logLevel))
    ∧ (opt.logLevel ≤ 6 → start opt cfg = assemble opt cfg
        ∧ ∀ a, assemble opt cfg = .ok a → a.logLevel = opt.logLevel) := by
  constructor
  · intro h
    simp [start, h]
  · intro h
    refine ⟨start_eq_assemble opt cfg h, ?_⟩
    intro a ha
    obtain ⟨m0, deps, m, ls, -, -, -, -, rfl⟩ := assemble_inv_ok opt cfg a ha
    rfl

/-- Witness for C10 at the concrete level 7 and the empty configuration. -/
theorem claim10_witness :
    6 < 7 ∧ start { logLevel := 7 } {} = .error (.invalidLogLevel 7) :=
  ⟨by decide, (claim10_log_level_check { logLevel := 7 } {}).1 (by decide)⟩

/-! ## Claim C7 -/

/-- C7: listeners are built only after the resolver graph (by the structure
of `assemble`, whose listener stage runs on the final resolver map); a
listener whose referenced resolver id is absent from that map makes the
step fail with an error naming the listener and the missing reference —
except when the protocol is "admin", in which case the reference is
tolerated and the admin listener is still built. -/
theorem claim7_listener_missing_resolver (m : RMap) (id : String) (l : Listener)
    (h : alookup m l.resolver = none) :
    (l.protocol ≠ "admin" →
      buildListenerStep m id l = .error (.listenerRefMissing id l.resolver))
    ∧ (l.protocol = "admin" → buildListenerStep m id l = .ok (.admin id l.address)) := by
  constructor
  · intro hp
    simp [buildListenerStep, h, hp]
  · intro hp
    simp [buildListenerStep, buildListenerProto, h, hp]

/-- Witness for C7: a tcp listener with an undefined reference fails with
the naming error on the empty resolver map. -/
theorem claim7_witness :
    alookup ([] : RMap) tcpListenerMissing.resolver = none
    ∧ buildListenerStep [] "l0" tcpListenerMissing =
        .error (.listenerRefMissing "l0" "r0") :=
  ⟨rfl, (claim7_listener_missing_resolver [] "l0" tcpListenerMissing rfl).1 (by decide)⟩

/-! ## Claim C8 -/

/-- C8: every fail-back group is constructed with `ResetAfter` of exactly
one minute, and every random group likewise, regardless of the group's
other configuration fields (main.go:272-274). -/
theorem claim8_failback_random_reset_minute (id : String) (g : Group) (m : RMap)
    (gr : List RResolver) (hc : buildChildren id g.resolvers m = .ok gr) :
    (g.type = "fail-back" →
      instantiateGroup id g m = .ok (upsert m id (.failBack id timeMinute gr)))
    ∧ (g.type = "random" →
      instantiateGroup id g m = .ok (upsert m id (.random id timeMinute gr)))
    ∧ timeMinute = 60 * 1000000000 := by
  refine ⟨?_, ?_, rfl⟩
  · intro ht
    exact instantiateGroup_eq id g m gr _ hc (by simp [groupValue, ht])
  · intro ht
    exact instantiateGroup_eq id g m gr _ hc (by simp [groupValue, ht])

/-- Witness for C8: a concrete fail-back group over one upstream. -/
theorem claim8_witness :
    failBackGroup.type = "fail-back"
    ∧ instantiateGroup "fb" failBackGroup mapTwoLeaves =
        .ok (upsert mapTwoLeaves "fb" (.failBack "fb" timeMinute [.leaf "u1"])) :=
  ⟨rfl, (claim8_failback_random_reset_minute "fb" failBackGroup mapTwoLeaves
    [.leaf "u1"] rfl).1 rfl⟩

/-! ## Claim C5 -/

/-- C5: when a router's routes are built, the deprecated singular `type`
field, when non-empty, is merged into the `types` list passed to the route
constructor (main.go:581-584), the resulting type set is deduplicated, and
a route with both `type` and `types` set matches exactly the query types in
either.  Route matching and the deduplication inside `rdns.NewRoute` are
modelled from the spec (the resolver library is not under `src/`). -/
theorem claim5_route_types_merged_dedup (rid : String) (rt : RouteCfg) (m : RMap)
    (res : RResolver) (t : String) (hres : alookup m rt.resolver = some res)
    (hty : rt.type ≠ "") :
    buildRoute rid rt m = .ok
      { name := rt.name, rclass := rt.rclass, types := (rt.types ++ [rt.type]).dedup,
        source := rt.source, invert := rt.invert, resolver := res }
    ∧ ((rt.types ++ [rt.type]).dedup).Nodup
    ∧ (routeTypeMatches ((rt.types ++ [rt.type]).dedup) t = true ↔
        (t ∈ rt.types ∨ t = rt.type)) := by
  have hne : (rt.types ++ [rt.type]).dedup ≠ [] := by
    intro he
    rw [List.dedup_eq_nil] at he
    simp at he
  refine ⟨?_, List.nodup_dedup _, ?_⟩
  · simp [buildRoute, hres, newRoute, hty]
  · unfold routeTypeMatches
    rw [Bool.or_eq_true]
    constructor
    · intro hm
      rcases hm with hm | hm
      · exact absurd (List.isEmpty_iff.mp hm) hne
      · have hmem : t ∈ (rt.types ++ [rt.type]).dedup := by simpa using hm
        rcases List.mem_append.mp (List.mem_dedup.mp hmem) with h2 | h2
        · exact .inl h2
        · exact .inr (List.mem_singleton.mp h2)
    · intro hor
      refine .inr ?_
      have hmem : t ∈ (rt.types ++ [rt.type]).dedup := by
        rw [List.mem_dedup]
        rcases hor with h2 | h2
        · exact List.mem_append_left _ h2
        · exact List.mem_append_right _ (by simp [h2])
      simpa using hmem

/-- Witness for C5: a route with `type` = "A" and `types` = ["AAAA", "A"]
builds with the deduplicated merged set and matches an "A" query. -/
theorem claim5_witness :
    routeBothTypes.type ≠ ""
    ∧ buildRoute "r0" routeBothTypes [("u1", .leaf "u1")] = .ok
        { name := "", rclass := "", types := ["AAAA", "A"], source := "",
          invert := false, resolver := .leaf "u1" }
    ∧ (routeTypeMatches ["AAAA", "A"] "A" = true ↔
        ("A" ∈ routeBothTypes.types ∨ "A" = routeBothTypes.type)) := by
  have h := claim5_route_types_merged_dedup "r0" routeBothTypes [("u1", .leaf "u1")]
    (.leaf "u1") "A" rfl (by decide)
  exact ⟨by decide, h.1, h.2.2⟩

/-! ## Claim C4 -/

/-- C4: the `cache` case of `instantiateGroup` (main.go:411-417), unlike
every other unary stage kind, performs no arity check: with an empty
resolver list the Go code indexes `gr[0]` and panics at runtime (modelled
as the `indexOutOfRange` error), and with two resolvers it silently
succeeds using only the first — in both cases contradicting the claim that
a non-singleton resolver list yields a configuration error. -/
theorem claim4_cache_arity_unchecked :
    instantiateGroup "c" cacheGroupNoChild [] = .error (.group .indexOutOfRange)
    ∧ instantiateGroup "c" cacheGroupTwoChildren mapTwoLeaves = .ok
        [("u1", .leaf "u1"), ("u2", .leaf "u2"),
         ("c", .cache "c" (.leaf "u1") 0 0 0)] :=
  ⟨rfl, rfl⟩

/-! ## Claim C3 -/

/-- C3 counterexample: a configuration defining `x` both as a resolver and
as a group does not produce a duplicate-id error; `start` succeeds, and the
group definition silently overwrites the resolver `x` in the map (the
final map holds the group's `drop` node, not the leaf). -/
theorem claim3_counterexample :
    "x" ∈ keys cfgResolverGroupClash.resolvers
    ∧ "x" ∈ keys cfgResolverGroupClash.groups
    ∧ start {} cfgResolverGroupClash =
        .ok { logLevel := 4, resolvers := [("x", .drop "x")], listeners := [] } :=
  ⟨by decide, by decide, rfl⟩

/-- C3 (amended): duplicate ids are only validated between the groups and
routers namespaces: an id defined both as a group and as a router makes
`start` return a "duplicate name" error before any listener is built, while
an id shared between the resolvers namespace and a group or router is not
detected (see the counterexample). -/
theorem claim3_duplicate_name_detected (opt : options) (cfg : Config)
    (hlog : opt.logLevel ≤ 6) (hres : (keys cfg.resolvers).Nodup)
    (hdup : ∃ id, id ∈ keys cfg.groups ∧ id ∈ keys cfg.routers) :
    isDupNameResult (start opt cfg) = true := by
  obtain ⟨id0, hg0, hr0⟩ := hdup
  rw [start_eq_assemble opt cfg hlog]
  obtain ⟨m0, hm0⟩ := buildResolvers_ok cfg.resolvers [] hres (fun x _ => rfl)
  cases hbd : buildDeps cfg with
  | ok deps =>
    exfalso
    unfold buildDeps at hbd
    obtain ⟨d1, hd1, h2⟩ := bind_ok_inv hbd
    have hsome : (alookup d1 id0).isSome := by
      rw [addGroupDeps_isSome _ _ _ hd1 id0]
      exact .inr ((alookup_isSome_iff _ _).mpr hg0)
    have hnone := addRouterDeps_none _ _ _ h2 id0 hsome
    rw [alookup_eq_none_iff] at hnone
    exact hnone hr0
  | error e =>
    obtain ⟨i, rfl⟩ := buildDeps_error_shape cfg e hbd
    have hass : assemble opt cfg = .error (.duplicateName i) := by
      unfold assemble
      rw [hm0, hbd]
      rfl
    rw [hass]
    rfl

/-- Witness for C3 (amended): the group/router clash on id `a` is caught. -/
theorem claim3_witness :
    (keys cfgGroupRouterClash.resolvers).Nodup
    ∧ "a" ∈ keys cfgGroupRouterClash.groups
    ∧ "a" ∈ keys cfgGroupRouterClash.routers
    ∧ isDupNameResult (start {} cfgGroupRouterClash) = true :=
  ⟨by decide, by decide, by decide,
    claim3_duplicate_name_detected {} cfgGroupRouterClash (by decide) (by decide)
      ⟨"a", by decide, by decide⟩⟩

/-! ## Claim C1 -/

theorem goodEntry_ref_mem (cfg : Config) (a d : String) (ds : List String)
    (hgood : GoodEntry cfg (a, ds)) (hdrefs : d ∈ nodeRefs cfg a) : d ∈ ds := by
  unfold nodeRefs at hdrefs
  rcases hgood with ⟨g, hg, hds, hrnone⟩ | ⟨hgnone, r, hr, hsub⟩
  · rw [hg, hrnone] at hdrefs
    simp only at hds
    rw [hds]
    simpa using hdrefs
  · rw [hgnone, hr] at hdrefs
    simp only [List.nil_append] at hdrefs
    rcases hsub with hsub | hempty
    · exact hsub hdrefs
    · exfalso
      unfold routerDeps at hdrefs
      rw [hempty] at hdrefs
      cases hdrefs

theorem node_entry_exists (cfg : Config) (deps : List (String × List String))
    (hbd : buildDeps cfg = .ok deps) (hnodes : (nodeIds cfg).Nodup) (a d : String)
    (hdrefs : d ∈ nodeRefs cfg a) : ∃ ds, (a, ds) ∈ deps := by
  unfold nodeRefs at hdrefs
  cases hg : alookup cfg.groups a with
  | some g =>
    exact ⟨groupDeps g, alookup_mem (buildDeps_group_entry cfg deps hbd a g hg)⟩
  | none =>
    rw [hg] at hdrefs
    cases hr : alookup cfg.routers a with
    | none =>
      rw [hr] at hdrefs
      simp at hdrefs
    | some r =>
      rw [hr] at hdrefs
      simp only [List.nil_append] at hdrefs
      have hemp : r.routes.isEmpty = false := by
        cases he : r.routes.isEmpty
        · rfl
        · exfalso
          unfold routerDeps at hdrefs
          rw [List.isEmpty_iff.mp he] at hdrefs
          cases hdrefs
      exact ⟨routerDeps r, alookup_mem (buildDeps_router_entry cfg deps hbd hnodes a r hr hemp)⟩

theorem roundRobin_inst_ok (id : String) (g : Group) (m : RMap)
    (ht : g.type = "round-robin") (hmet : depsMet m (groupDeps g) = true) :
    ∃ m', instantiateGroup id g m = .ok m' := by
  obtain ⟨gr, hgr⟩ := buildChildren_ok_of_met id g.resolvers m (depsMet_resolvers hmet)
  exact ⟨upsert m id (.roundRobin id gr),
    instantiateGroup_eq id g m gr _ hgr (by simp [groupValue, ht])⟩

/-- C1 (amended): for a configuration in which each namespace's ids are
unique, no group or router shares an id with a resolver, and every group
whose dependencies are all available instantiates without error, a cycle in
the group/router dependency relation or a reference to a never-defined id
makes `start` return exactly the "unable to resolve dependencies" error — a
pass of the fixed-point loop instantiates no node — and, the error being
returned before the listener stage of `assemble`, no listener is
constructed or started. -/
theorem claim1_cycle_or_dangling_unresolved (opt : options) (cfg : Config)
    (hlog : opt.logLevel ≤ 6)
    (hres : (keys cfg.resolvers).Nodup)
    (hnodes : (nodeIds cfg).Nodup)
    (hdisj : ∀ id ∈ nodeIds cfg, id ∉ keys cfg.resolvers)
    (hinst : ∀ id g m2, alookup cfg.groups id = some g → depsMet m2 (groupDeps g) = true →
      ∃ m', instantiateGroup id g m2 = .ok m')
    (hcyc : HasCycle cfg ∨ HasDanglingRef cfg) :
    start opt cfg = .error .unableToResolveDependencies := by
  rw [start_eq_assemble opt cfg hlog]
  obtain ⟨m0, hm0⟩ := buildResolvers_ok cfg.resolvers [] hres (fun x _ => rfl)
  obtain ⟨deps, hbd⟩ := buildDeps_ok cfg hnodes
  have hgood := buildDeps_good cfg deps hbd
  have hm0none : ∀ x, x ∉ keys cfg.resolvers → alookup m0 x = none := by
    intro x hx
    cases hv : alookup m0 x with
    | none => rfl
    | some v =>
      exfalso
      have hsome : (alookup m0 x).isSome := by simp [hv]
      rw [buildResolvers_isSome _ _ _ hm0 x] at hsome
      rcases hsome with hsome | hsome
      · simp [alookup] at hsome
      · exact hx ((alookup_isSome_iff _ _).mp hsome)
  have hstuck : ∃ A, Absent A deps m0 ∧ ∃ p ∈ deps, p.1 ∈ A := by
    rcases hcyc with ⟨S, hSne, hS⟩ | ⟨id0, hid0, d0, hd0refs, hd0nd⟩
    · refine ⟨S, ⟨?_, ?_⟩, ?_⟩
      · intro a ha
        exact hm0none a (hdisj a (hS a ha).1)
      · intro a ha ds hads
        obtain ⟨-, d, hdrefs, hdS⟩ := hS a ha
        exact ⟨d, goodEntry_ref_mem cfg a d ds (hgood _ hads) hdrefs, hdS⟩
      · obtain ⟨a0, ha0⟩ := List.exists_mem_of_ne_nil S hSne
        obtain ⟨-, d, hdrefs, -⟩ := hS a0 ha0
        obtain ⟨ds, hds⟩ := node_entry_exists cfg deps hbd hnodes a0 d hdrefs
        exact ⟨(a0, ds), hds, ha0⟩
    · have hd0res : d0 ∉ keys cfg.resolvers := by
        intro hmem
        exact hd0nd (List.mem_append_left _ hmem)
      have hd0nodes : d0 ∉ nodeIds cfg := by
        intro hmem
        exact hd0nd (List.mem_append_right _ hmem)
      refine ⟨[id0, d0], ⟨?_, ?_⟩, ?_⟩
      · intro a ha
        rcases List.mem_cons.mp ha with rfl | ha
        · exact hm0none a (hdisj a hid0)
        · rcases List.mem_singleton.mp ha with rfl
          exact hm0none a hd0res
      · intro a ha ds hads
        rcases List.mem_cons.mp ha with rfl | ha
        · exact ⟨d0, goodEntry_ref_mem cfg a d0 ds (hgood _ hads) hd0refs, by simp⟩
        · rcases List.mem_singleton.mp ha with rfl
          exfalso
          have hmem : a ∈ nodeIds cfg := by
            rcases hgood _ hads with ⟨g, hg, -, -⟩ | ⟨-, r, hr, -⟩
            · exact List.mem_append_left _ ((alookup_isSome_iff _ _).mp (by simp [hg]))
            · exact List.mem_append_right _ ((alookup_isSome_iff _ _).mp (by simp [hr]))
          exact hd0nodes hmem
      · obtain ⟨ds, hds⟩ := node_entry_exists cfg deps hbd hnodes id0 d0 hd0refs
        exact ⟨(id0, ds), hds, by simp⟩
  obtain ⟨A, hAbs, hex⟩ := hstuck
  have hloop := resolveLoop_stuck cfg A deps.length deps m0 (Nat.le_refl _) hAbs hex hgood hinst
  unfold assemble
  rw [hm0, hbd]
  show (resolveLoop cfg deps.length deps m0 >>= _) = _
  rw [hloop]
  rfl

/-- C1 counterexample: the group dependency relation of
`cfgCycleSharedId` has the cycle x → y → x, yet `start` does not return
"unable to resolve dependencies": the id `x` is also a resolver, so group y
resolves against the leaf `x`, after which group x is instantiated and
overwrites it, and assembly succeeds. -/
theorem claim1_counterexample :
    nodeRefs cfgCycleSharedId "x" = ["y"]
    ∧ nodeRefs cfgCycleSharedId "y" = ["x"]
    ∧ HasCycle cfgCycleSharedId
    ∧ start {} cfgCycleSharedId ≠ .error .unableToResolveDependencies := by
  refine ⟨rfl, rfl, ⟨["x", "y"], by decide⟩, ?_⟩
  intro h
  rw [show start {} cfgCycleSharedId = .ok
    { logLevel := 4,
      resolvers := [("x", .roundRobin "x" [.roundRobin "y" [.leaf "x"]]),
                    ("y", .roundRobin "y" [.leaf "x"])],
      listeners := [] } from rfl] at h
  exact Except.noConfusion h

/-- Witness for C1 (amended): the pure two-group cycle a → b → a is
reported as "unable to resolve dependencies". -/
theorem claim1_witness :
    HasCycle cfgPureCycle
    ∧ start {} cfgPureCycle = .error .unableToResolveDependencies := by
  refine ⟨⟨["a", "b"], by decide⟩, ?_⟩
  refine claim1_cycle_or_dangling_unresolved {} cfgPureCycle (by decide) (by decide)
    (by decide) (by decide) ?_ (.inl ⟨["a", "b"], by decide⟩)
  intro id g m2 hl hm2
  refine roundRobin_inst_ok id g m2 ?_ hm2
  simp only [cfgPureCycle, alookup] at hl
  split at hl
  · injection hl with h'
    rw [← h']
  · split at hl
    · injection hl with h'
      rw [← h']
    · exact Option.noConfusion hl

end RouteDNS
